import Mathlib

/-!
Shallow embedding of the mm-cli transaction analysis engine
(`mm_cli/analysis.py`, `mm_cli/rules.py`, `mm_cli/models.py`) and proofs of
the specification claims about it.

Python `Decimal`/numeric values are modelled as exact rationals (`Rat`);
Python `date` values are modelled by a calendar record with proleptic
Gregorian day arithmetic (the semantics of `datetime.date`); Python `dict`s
built by the code are modelled as insertion-ordered association lists with
last-write-wins lookup, and `set`s as lists used only through membership.
Record fields that none of the embedded functions consume are omitted.
-/

namespace MM

/-! ### Calendar model (semantics of Python `datetime.date`) -/

/-- A calendar date, as Python's `datetime.date` (proleptic Gregorian). -/
structure Date where
  year : Nat
  month : Nat
  day : Nat
deriving DecidableEq, Repr

/-- Gregorian leap-year rule. -/
def isLeapYear (y : Nat) : Bool :=
  (y % 4 == 0 && y % 100 != 0) || y % 400 == 0

/-- Number of days in month `m` of year `y`. -/
def daysInMonth (y m : Nat) : Nat :=
  if m = 2 then (if isLeapYear y then 29 else 28)
  else if m = 4 ∨ m = 6 ∨ m = 9 ∨ m = 11 then 30
  else 31

/-- A date the Python `date` constructor accepts (year ≥ 1). -/
def Date.Valid (d : Date) : Prop :=
  1 ≤ d.year ∧ 1 ≤ d.month ∧ d.month ≤ 12 ∧ 1 ≤ d.day ∧ d.day ≤ daysInMonth d.year d.month

instance (d : Date) : Decidable d.Valid := by
  unfold Date.Valid; infer_instance

/-- Days of year `y` that precede month `m` (0 for January). -/
def daysBeforeMonth (y : Nat) : Nat → Nat
  | 0 => 0
  | 1 => 0
  | m + 1 => daysBeforeMonth y m + daysInMonth y m

/-- Days before January 1 of year `y`, counted from day 1 = 0001-01-01
(the ordinal scheme of Python's `date.toordinal`). -/
def daysBeforeYear (y : Nat) : Nat :=
  365 * (y - 1) + (y - 1) / 4 - (y - 1) / 100 + (y - 1) / 400

/-- Python `date.toordinal`: 0001-01-01 is day 1. -/
def Date.toOrdinal (d : Date) : Nat :=
  daysBeforeYear d.year + daysBeforeMonth d.year d.month + d.day

/-- The previous calendar day (semantics of `d - timedelta(days=1)`). -/
def Date.pred (d : Date) : Date :=
  if 1 < d.day then ⟨d.year, d.month, d.day - 1⟩
  else if 1 < d.month then ⟨d.year, d.month - 1, daysInMonth d.year (d.month - 1)⟩
  else ⟨d.year - 1, 12, 31⟩

/-- `d - timedelta(days=n)` for `n ≥ 0`. -/
def Date.subDays (d : Date) (n : Nat) : Date :=
  Date.pred^[n] d

/-- The next calendar day. -/
def Date.succ (d : Date) : Date :=
  if d.day < daysInMonth d.year d.month then ⟨d.year, d.month, d.day + 1⟩
  else if d.month < 12 then ⟨d.year, d.month + 1, 1⟩
  else ⟨d.year + 1, 1, 1⟩

/-- `d - timedelta(days=k)` for a possibly negative integer `k`. -/
def Date.subDaysI (d : Date) (k : Int) : Date :=
  if 0 ≤ k then d.subDays k.toNat else Date.succ^[(-k).toNat] d

/-- `(a - b).days` of Python dates. -/
def dateDiff (a b : Date) : Int :=
  (a.toOrdinal : Int) - (b.toOrdinal : Int)

/-- Number of days in year `y`. -/
def yearLength (y : Nat) : Nat :=
  if isLeapYear y then 366 else 365

set_option maxHeartbeats 1000000 in
theorem daysBeforeYear_succ (y : Nat) (hy : 1 ≤ y) :
    daysBeforeYear (y + 1) = daysBeforeYear y + yearLength y := by
  obtain ⟨m, rfl⟩ : ∃ m, y = m + 1 := ⟨y - 1, by omega⟩
  unfold daysBeforeYear yearLength isLeapYear
  simp only [Nat.add_sub_cancel, Bool.or_eq_true, Bool.and_eq_true, beq_iff_eq,
    bne_iff_ne, ne_eq]
  split <;> omega

theorem daysInMonth_pos (y m : Nat) : 1 ≤ daysInMonth y m := by
  unfold daysInMonth
  split
  · split <;> omega
  · split <;> omega

theorem daysInMonth_le (y m : Nat) : daysInMonth y m ≤ 31 := by
  unfold daysInMonth
  split
  · split <;> omega
  · split <;> omega

theorem daysBeforeMonth_succ (y m : Nat) (h1 : 1 ≤ m) :
    daysBeforeMonth y (m + 1) = daysBeforeMonth y m + daysInMonth y m := by
  match m, h1 with
  | m + 1, _ => rfl

theorem daysBeforeMonth_twelve (y : Nat) :
    daysBeforeMonth y 12 + 31 = yearLength y := by
  cases h : isLeapYear y <;>
    simp [daysBeforeMonth, daysInMonth, yearLength, h]

theorem daysBeforeYear_one : daysBeforeYear 1 = 0 := by
  unfold daysBeforeYear; omega

theorem Date.toOrdinal_pos (d : Date) (hv : d.Valid) : 1 ≤ d.toOrdinal := by
  obtain ⟨-, -, -, hd, -⟩ := hv
  unfold Date.toOrdinal
  omega

theorem year_ge_two_of_ordinal (d : Date) (hv : d.Valid) (hm : d.month = 1)
    (hd : d.day = 1) (h2 : 2 ≤ d.toOrdinal) : 2 ≤ d.year := by
  obtain ⟨hy, -, -, -, -⟩ := hv
  by_contra h
  have hy1 : d.year = 1 := by omega
  unfold Date.toOrdinal at h2
  rw [hy1, hm, hd, daysBeforeYear_one] at h2
  simp [daysBeforeMonth] at h2

/-- Stepping back one day decrements the ordinal. -/
theorem Date.toOrdinal_pred (d : Date) (hv : d.Valid) (h2 : 2 ≤ d.toOrdinal) :
    (Date.pred d).toOrdinal = d.toOrdinal - 1 := by
  obtain ⟨hy, hm1, hm12, hd1, hdM⟩ := hv
  unfold Date.pred
  split
  · unfold Date.toOrdinal; dsimp only; omega
  · split
    · rename_i hday hmon
      have hde : d.day = 1 := by omega
      have hrec : daysBeforeMonth d.year (d.month - 1 + 1) =
          daysBeforeMonth d.year (d.month - 1) + daysInMonth d.year (d.month - 1) :=
        daysBeforeMonth_succ d.year (d.month - 1) (by omega)
      have hme : d.month - 1 + 1 = d.month := by omega
      rw [hme] at hrec
      unfold Date.toOrdinal
      dsimp only
      omega
    · rename_i hday hmon
      have hde : d.day = 1 := by omega
      have hme : d.month = 1 := by omega
      have hy2 : 2 ≤ d.year := year_ge_two_of_ordinal d ⟨hy, hm1, hm12, hd1, hdM⟩ hme hde h2
      have hby : daysBeforeYear (d.year - 1 + 1) =
          daysBeforeYear (d.year - 1) + yearLength (d.year - 1) :=
        daysBeforeYear_succ (d.year - 1) (by omega)
      have hye : d.year - 1 + 1 = d.year := by omega
      rw [hye] at hby
      have h12 : daysBeforeMonth (d.year - 1) 12 + 31 = yearLength (d.year - 1) :=
        daysBeforeMonth_twelve (d.year - 1)
      have h1 : daysBeforeMonth d.year 1 = 0 := rfl
      unfold Date.toOrdinal
      dsimp only
      rw [hme]
      omega

/-- Stepping back one day preserves validity (above the calendar's origin). -/
theorem Date.pred_valid (d : Date) (hv : d.Valid) (h2 : 2 ≤ d.toOrdinal) :
    (Date.pred d).Valid := by
  obtain ⟨hy, hm1, hm12, hd1, hdM⟩ := hv
  unfold Date.pred
  split
  · refine ⟨?_, ?_, ?_, ?_, ?_⟩ <;> dsimp only <;> omega
  · split
    · rename_i hday hmon
      have hpos := daysInMonth_pos d.year (d.month - 1)
      refine ⟨?_, ?_, ?_, ?_, ?_⟩ <;> dsimp only <;> omega
    · rename_i hday hmon
      have hy2 : 2 ≤ d.year :=
        year_ge_two_of_ordinal d ⟨hy, hm1, hm12, hd1, hdM⟩ (by omega) (by omega) h2
      have h31 : daysInMonth (d.year - 1) 12 = 31 := rfl
      refine ⟨?_, ?_, ?_, ?_, ?_⟩ <;> dsimp only <;> omega

/-- Iterated predecessor: validity and exact ordinal shift. -/
theorem Date.subDays_spec (d : Date) (n : Nat) (hv : d.Valid)
    (hn : n + 1 ≤ d.toOrdinal) :
    (d.subDays n).Valid ∧ (d.subDays n).toOrdinal = d.toOrdinal - n := by
  induction n with
  | zero => exact ⟨hv, rfl⟩
  | succ k ih =>
    have hk : k + 1 ≤ d.toOrdinal := by omega
    obtain ⟨hval, hord⟩ := ih hk
    have h2 : 2 ≤ (d.subDays k).toOrdinal := by omega
    have hstep : d.subDays (k + 1) = Date.pred (d.subDays k) := by
      unfold Date.subDays
      rw [Function.iterate_succ_apply]
      rw [← Function.iterate_succ_apply, Function.iterate_succ_apply']
    constructor
    · rw [hstep]; exact Date.pred_valid _ hval h2
    · rw [hstep, Date.toOrdinal_pred _ hval h2, hord]; omega

/-! ### Data model (`mm_cli/models.py`) -/

/-- Category type (`CategoryType`). -/
inductive CategoryType where
  | income
  | expense
  | transfer
deriving DecidableEq, Repr

/-- A MoneyMoney account (`Account`); fields the analysis code never reads
(`bank_name`, `currency`, `account_type`, `owner`, `bic`, `portfolio`) are
omitted. -/
structure Account where
  id : String
  name : String
  account_number : String
  balance : Rat
  iban : String
  group : String
deriving DecidableEq, Repr

/-- A MoneyMoney transaction (`Transaction`); fields the analysis code never
reads (`value_date`, `currency`, `checkmark`, `comment`, `account_name`,
`booked`) are omitted. `category_id`/`category_name` are `None`-able. -/
structure Transaction where
  id : String
  account_id : String
  booking_date : Date
  amount : Rat
  name : String
  purpose : String
  category_id : Option String
  category_name : Option String
  counterparty_iban : String
deriving DecidableEq, Repr

/-- A MoneyMoney category (`Category`); presentation-only fields are
omitted. `budget = none` models both `None` and the absent budget. -/
structure Category where
  id : String
  name : String
  category_type : CategoryType
  budget : Option Rat
  budget_period : String
  group : Bool
  rules : String
  path : String
deriving DecidableEq, Repr

/-- Python `x or default` on an optional string (`None` and `""` are falsy). -/
def pyOr (x : Option String) (dflt : String) : String :=
  match x with
  | none => dflt
  | some s => if s = "" then dflt else s

/-- Python `x in ids` where `x : str | None` and `ids` a set of strings. -/
def optMem (x : Option String) (l : List String) : Bool :=
  match x with
  | some s => l.contains s
  | none => false

/-- Lookup in a Python dict built by successive assignments (last write
wins), with a default. -/
def dget (l : List (String × String)) (k : String) (dflt : String) : String :=
  l.foldl (fun acc p => if p.1 == k then p.2 else acc) dflt

/-! ### Transfer classifier (`analysis.py:23-146`) -/

/-- `get_transfer_category_ids`: ids of categories whose path starts with
the `"Umbuchungen"` root. -/
def get_transfer_category_ids (categories : List Category) : List String :=
  categories.foldl
    (fun ids cat =>
      if cat.path ≠ "" ∧ cat.path.startsWith "Umbuchungen" then ids ++ [cat.id] else ids)
    []

/-- `build_own_iban_set`: all own IBANs and account numbers (truthy only). -/
def build_own_iban_set (accounts : List Account) : List String :=
  (accounts.foldl
    (fun result acc =>
      let result := if acc.iban ≠ "" then result ++ [acc.iban] else result
      if acc.account_number ≠ "" then result ++ [acc.account_number] else result)
    []).filter (fun s => s ≠ "")

/-- `build_iban_to_group`: maps each own IBAN/account number to its
lowercased group. -/
def build_iban_to_group (accounts : List Account) : List (String × String) :=
  accounts.foldl
    (fun result acc =>
      let group := acc.group.toLower
      let result := if acc.iban ≠ "" then result ++ [(acc.iban, group)] else result
      if acc.account_number ≠ "" then result ++ [(acc.account_number, group)] else result)
    []

/-- `get_account_group`: lowercased group of the account with the given id,
`""` when absent. -/
def get_account_group (account_id : String) (accounts : List Account) : String :=
  match accounts.find? (fun acc => acc.id == account_id) with
  | some acc => acc.group.toLower
  | none => ""

/-- The per-transaction decision of the `filter_transfers` loop: `true`
exactly when the loop appends the transaction to `result`. -/
def transferKeep (accounts : Option (List Account)) (groups_lower : Option (List String))
    (transfer_category_ids : List String) (tx : Transaction) : Bool :=
  match accounts with
  | some accs =>
    if tx.counterparty_iban ≠ "" ∧ (build_own_iban_set accs).contains tx.counterparty_iban then
      match groups_lower with
      | some _ =>
        get_account_group tx.account_id accs != dget (build_iban_to_group accs) tx.counterparty_iban ""
      | none => false
    else
      !(optMem tx.category_id transfer_category_ids)
  | none => !(optMem tx.category_id transfer_category_ids)

/-- `filter_transfers`: remove internal transfers (IBAN detection first,
with the cross-group exception under an active-group filter; category
fallback otherwise). -/
def filter_transfers (transactions : List Transaction) (transfer_category_ids : List String)
    (accounts : Option (List Account)) (active_groups : Option (List String)) :
    List Transaction :=
  let groups_lower : Option (List String) :=
    match accounts, active_groups with
    | some _, some gs => if gs.isEmpty then none else some (gs.map String.toLower)
    | _, _ => none
  transactions.filter (transferKeep accounts groups_lower transfer_category_ids)

/-- The per-transaction decision of the `extract_transfers` loop. -/
def extractKeep (accounts : Option (List Account))
    (transfer_category_ids : List String) (tx : Transaction) : Bool :=
  match accounts with
  | some accs =>
    if tx.counterparty_iban ≠ "" ∧ (build_own_iban_set accs).contains tx.counterparty_iban then
      true
    else
      optMem tx.category_id transfer_category_ids
  | none => optMem tx.category_id transfer_category_ids

/-- `extract_transfers`: keep only internal transfers (both signals, no
cross-group exception). -/
def extract_transfers (transactions : List Transaction) (transfer_category_ids : List String)
    (accounts : Option (List Account)) : List Transaction :=
  transactions.filter (extractKeep accounts transfer_category_ids)

theorem extractKeep_eq_not_transferKeep (accs : List Account) (ids : List String)
    (tx : Transaction) :
    extractKeep (some accs) ids tx = !(transferKeep (some accs) none ids tx) := by
  unfold extractKeep transferKeep
  split <;> simp

theorem mem_filter_transfers (txs : List Transaction) (ids : List String)
    (accounts : Option (List Account)) (gl : Option (List String)) (tx : Transaction)
    (htx : tx ∈ txs) (g : Option (List String))
    (hg : (match accounts, g with
           | some _, some gs => if gs.isEmpty then none else some (gs.map String.toLower)
           | _, _ => none) = gl) :
    tx ∈ filter_transfers txs ids accounts g ↔ transferKeep accounts gl ids tx = true := by
  unfold filter_transfers
  rw [hg]
  simp [List.mem_filter, htx]

/-- C1: with account data and no active-group filter, `filter_transfers` and
`extract_transfers` partition the transaction list: their concatenation is a
permutation of the input, a transaction is in the input iff it is in one of
the two outputs, and no transaction is in both. -/
theorem C1_filter_extract_partition (txs : List Transaction) (ids : List String)
    (accs : List Account) :
    (filter_transfers txs ids (some accs) none ++ extract_transfers txs ids (some accs)).Perm txs ∧
    (∀ tx, tx ∈ txs ↔
      (tx ∈ filter_transfers txs ids (some accs) none ∨
       tx ∈ extract_transfers txs ids (some accs))) ∧
    (∀ tx, ¬(tx ∈ filter_transfers txs ids (some accs) none ∧
             tx ∈ extract_transfers txs ids (some accs))) := by
  have hext : extract_transfers txs ids (some accs)
      = txs.filter (fun tx => !(transferKeep (some accs) none ids tx)) := by
    unfold extract_transfers
    exact List.filter_congr (fun tx _ => extractKeep_eq_not_transferKeep accs ids tx)
  have hfil : filter_transfers txs ids (some accs) none
      = txs.filter (transferKeep (some accs) none ids) := rfl
  refine ⟨?_, ?_, ?_⟩
  · rw [hfil, hext]
    exact List.filter_append_perm _ txs
  · intro tx
    rw [hfil, hext]
    constructor
    · intro htx
      cases h : transferKeep (some accs) none ids tx
      · exact Or.inr (List.mem_filter.mpr ⟨htx, by simp [h]⟩)
      · exact Or.inl (List.mem_filter.mpr ⟨htx, h⟩)
    · rintro (h | h) <;> exact (List.mem_filter.mp h).1
  · rintro tx ⟨h1, h2⟩
    rw [hfil] at h1
    rw [hext] at h2
    have k1 := (List.mem_filter.mp h1).2
    have k2 := (List.mem_filter.mp h2).2
    simp [k1] at k2

/-- C4: per-transaction behaviour of `filter_transfers` with account data:
when the counterparty IBAN matches an own account and a non-empty
active-group filter is supplied, the transaction is kept iff the owning
account's group differs (case-insensitively) from the counterparty
account's group; with no filter such a transaction is dropped; when the
IBAN signal does not apply it is dropped exactly when its category id is a
transfer category, so a transaction with neither signal is kept. -/
theorem C4_filter_transfers_cases (txs : List Transaction) (ids : List String)
    (accs : List Account) (gs : List String) (tx : Transaction)
    (htx : tx ∈ txs) (hgs : gs ≠ []) :
    (tx.counterparty_iban ≠ "" → tx.counterparty_iban ∈ build_own_iban_set accs →
      ((tx ∈ filter_transfers txs ids (some accs) (some gs) ↔
        get_account_group tx.account_id accs ≠
          dget (build_iban_to_group accs) tx.counterparty_iban "") ∧
       tx ∉ filter_transfers txs ids (some accs) none)) ∧
    ((tx.counterparty_iban = "" ∨ tx.counterparty_iban ∉ build_own_iban_set accs) →
      ∀ ag, (tx ∈ filter_transfers txs ids (some accs) ag ↔
        optMem tx.category_id ids = false)) := by
  have hne : gs.isEmpty = false := by
    cases gs with
    | nil => exact absurd rfl hgs
    | cons a as => rfl
  constructor
  · intro hiban hown
    have hcond : (tx.counterparty_iban ≠ "" ∧
        (build_own_iban_set accs).contains tx.counterparty_iban) := by
      exact ⟨hiban, List.elem_eq_true_of_mem hown⟩
    constructor
    · rw [mem_filter_transfers txs ids (some accs)
        (some (gs.map String.toLower)) tx htx (some gs) (by simp [hne])]
      unfold transferKeep
      dsimp only
      rw [if_pos hcond]
      simp [bne_iff_ne]
    · rw [mem_filter_transfers txs ids (some accs) none tx htx none rfl]
      unfold transferKeep
      dsimp only
      rw [if_pos hcond]
      simp
  · intro hno ag
    have hcond : ¬(tx.counterparty_iban ≠ "" ∧
        (build_own_iban_set accs).contains tx.counterparty_iban) := by
      rcases hno with h | h
      · exact fun hc => hc.1 h
      · exact fun hc => h (List.mem_of_elem_eq_true hc.2)
    have step : ∀ gl, tx ∈ txs.filter (transferKeep (some accs) gl ids) ↔
        optMem tx.category_id ids = false := by
      intro gl
      rw [List.mem_filter]
      unfold transferKeep
      dsimp only
      rw [if_neg hcond]
      simp [htx]
    cases ag with
    | none => exact step none
    | some gs2 =>
      unfold filter_transfers
      by_cases he : gs2.isEmpty
      · simp only [he, if_true]
        exact step none
      · simp only [he, if_false]
        exact step (some (gs2.map String.toLower))

/-- C10: the output of `filter_transfers` depends on the active-group list
only through its non-emptiness: any two non-empty lists give the same
result, and the empty list behaves as no filter at all. -/
theorem C10_active_groups_irrelevant (txs : List Transaction) (ids : List String)
    (accs : List Account) (g1 g2 : List String) (h1 : g1 ≠ []) (h2 : g2 ≠ []) :
    filter_transfers txs ids (some accs) (some g1) =
      filter_transfers txs ids (some accs) (some g2) ∧
    filter_transfers txs ids (some accs) (some []) =
      filter_transfers txs ids (some accs) none := by
  have e1 : g1.isEmpty = false := by cases g1 with | nil => exact absurd rfl h1 | cons a as => rfl
  have e2 : g2.isEmpty = false := by cases g2 with | nil => exact absurd rfl h2 | cons a as => rfl
  constructor
  · unfold filter_transfers
    simp only [e1, e2, if_false]
    exact List.filter_congr (fun tx _ => rfl)
  · rfl

/-! ### Period resolver (`analysis.py:149-253`) -/

/-- English month name (`strftime "%B"`). -/
def monthName : Nat → String
  | 1 => "January"
  | 2 => "February"
  | 3 => "March"
  | 4 => "April"
  | 5 => "May"
  | 6 => "June"
  | 7 => "July"
  | 8 => "August"
  | 9 => "September"
  | 10 => "October"
  | 11 => "November"
  | 12 => "December"
  | _ => ""

/-- Zero-padded two-digit rendering. -/
def pad2 (n : Nat) : String :=
  if n < 10 then "0" ++ toString n else toString n

/-- Zero-padded four-digit rendering. -/
def pad4 (n : Nat) : String :=
  if n < 10 then "000" ++ toString n
  else if n < 100 then "00" ++ toString n
  else if n < 1000 then "0" ++ toString n
  else toString n

/-- Python `date.isoformat`. -/
def Date.isoformat (d : Date) : String :=
  pad4 d.year ++ "-" ++ pad2 d.month ++ "-" ++ pad2 d.day

/-- `strftime "%B %Y"`. -/
def monthYearLabel (d : Date) : String :=
  monthName d.month ++ " " ++ toString d.year

/-- The valid period keywords, in the order the error message lists them. -/
def periodKeywords : List String :=
  ["this-month", "last-month", "this-quarter", "last-quarter", "this-year"]

/-- The `ValueError` message raised for an unknown period keyword. -/
def unknownPeriodMessage (period_name : String) : String :=
  "Unknown period: " ++ period_name ++
    ". Use: this-month, last-month, this-quarter, last-quarter, this-year"

/-- `resolve_period`: named period to `(start, end, label)`; `today` is the
externally supplied current date, and the raised `ValueError` is modelled
as `Except.error`. -/
def resolve_period (period_name : String) (today : Date) :
    Except String (Date × Date × String) :=
  if period_name = "this-month" then
    let start : Date := ⟨today.year, today.month, 1⟩
    let e : Date :=
      if today.month = 12 then (⟨today.year + 1, 1, 1⟩ : Date).subDays 1
      else (⟨today.year, today.month + 1, 1⟩ : Date).subDays 1
    .ok (start, e, monthYearLabel today)
  else if period_name = "last-month" then
    let first_this_month : Date := ⟨today.year, today.month, 1⟩
    let e := first_this_month.subDays 1
    let start : Date := ⟨e.year, e.month, 1⟩
    .ok (start, e, monthYearLabel start)
  else if period_name = "this-quarter" then
    let quarter := (today.month - 1) / 3
    let start : Date := ⟨today.year, quarter * 3 + 1, 1⟩
    let end_month := quarter * 3 + 3
    let e : Date :=
      if end_month = 12 then ⟨today.year, 12, 31⟩
      else (⟨today.year, end_month + 1, 1⟩ : Date).subDays 1
    .ok (start, e, "Q" ++ toString (quarter + 1) ++ " " ++ toString today.year)
  else if period_name = "last-quarter" then
    let quarter := (today.month - 1) / 3
    if quarter = 0 then
      .ok (⟨today.year - 1, 10, 1⟩, ⟨today.year - 1, 12, 31⟩,
        "Q4 " ++ toString (today.year - 1))
    else
      let prev_q := quarter - 1
      let start : Date := ⟨today.year, prev_q * 3 + 1, 1⟩
      let end_month := prev_q * 3 + 3
      let e : Date :=
        if end_month = 12 then ⟨today.year, 12, 31⟩
        else (⟨today.year, end_month + 1, 1⟩ : Date).subDays 1
      .ok (start, e, "Q" ++ toString (prev_q + 1) ++ " " ++ toString today.year)
  else if period_name = "this-year" then
    .ok (⟨today.year, 1, 1⟩, ⟨today.year, 12, 31⟩, toString today.year)
  else
    .error (unknownPeriodMessage period_name)

/-- `get_previous_period`: the preceding period of equal length. -/
def get_previous_period (start e : Date) : Date × Date × String :=
  let duration : Int := dateDiff e start
  if start.day = 1 ∧ 27 ≤ duration ∧ duration ≤ 31 then
    if start.month = 1 then
      (⟨start.year - 1, 12, 1⟩, ⟨start.year - 1, 12, 31⟩,
        monthYearLabel ⟨start.year - 1, 12, 1⟩)
    else
      let prev_start : Date := ⟨start.year, start.month - 1, start.day⟩
      let prev_end : Date :=
        if start.month - 1 = 12 then ⟨start.year, 12, 31⟩ else start.subDays 1
      (prev_start, prev_end, monthYearLabel prev_start)
  else
    let prev_end := start.subDays 1
    let prev_start := prev_end.subDaysI duration
    (prev_start, prev_end, prev_start.isoformat ++ " - " ++ prev_end.isoformat)

/-- C8: `resolve_period` errors exactly on a keyword outside the five valid
ones, with a message naming the offending value and the valid set, and
returns an `ok` triple on each valid keyword for every current date. -/
theorem C8_resolve_period_ok_or_error (period_name : String) (today : Date) :
    (period_name ∈ periodKeywords →
      ∃ s e l, resolve_period period_name today = .ok (s, e, l)) ∧
    (period_name ∉ periodKeywords →
      resolve_period period_name today = .error (unknownPeriodMessage period_name)) := by
  constructor
  · intro h
    simp only [periodKeywords, List.mem_cons, List.mem_singleton, List.not_mem_nil,
      or_false] at h
    rcases h with rfl | rfl | rfl | rfl | rfl
    · exact ⟨_, _, _, rfl⟩
    · exact ⟨_, _, _, rfl⟩
    · exact ⟨_, _, _, rfl⟩
    · unfold resolve_period
      rw [if_neg (by decide), if_neg (by decide), if_neg (by decide), if_pos rfl]
      dsimp only
      split
      · exact ⟨_, _, _, rfl⟩
      · exact ⟨_, _, _, rfl⟩
    · exact ⟨_, _, _, rfl⟩
  · intro h
    simp only [periodKeywords, List.mem_cons, List.mem_singleton, List.not_mem_nil,
      or_false, not_or] at h
    obtain ⟨h1, h2, h3, h4, h5⟩ := h
    unfold resolve_period
    rw [if_neg h1, if_neg h2, if_neg h3, if_neg h4, if_neg h5]

/-- C8 witness: a valid keyword resolves, an invalid one reports the
configuration error. -/
theorem C8_resolve_period_witness :
    (∃ s e l, resolve_period "this-month" ⟨2026, 1, 15⟩ = .ok (s, e, l)) ∧
    resolve_period "bogus" ⟨2026, 1, 15⟩ = .error (unknownPeriodMessage "bogus") :=
  ⟨(C8_resolve_period_ok_or_error "this-month" ⟨2026, 1, 15⟩).1 (by decide),
   (C8_resolve_period_ok_or_error "bogus" ⟨2026, 1, 15⟩).2 (by decide)⟩

/-- C3: for valid `start ≤ end` (with enough room in the calendar), if
`start` is the first of a month and the span is 27-31 days,
`get_previous_period` returns the immediately preceding full calendar
month, including across a year boundary; otherwise it shifts the interval
back by its exact day count with no calendar alignment. -/
theorem C3_get_previous_period (s e : Date) (hs : s.Valid) (he : e.Valid)
    (hle : s.toOrdinal ≤ e.toOrdinal)
    (hroom : e.toOrdinal - s.toOrdinal + 2 ≤ s.toOrdinal) :
    (s.day = 1 → 27 ≤ e.toOrdinal - s.toOrdinal → e.toOrdinal - s.toOrdinal ≤ 31 →
      ((s.month = 1 →
        (get_previous_period s e).1 = ⟨s.year - 1, 12, 1⟩ ∧
        (get_previous_period s e).2.1 = ⟨s.year - 1, 12, 31⟩) ∧
       (2 ≤ s.month →
        (get_previous_period s e).1 = ⟨s.year, s.month - 1, 1⟩ ∧
        (get_previous_period s e).2.1 =
          ⟨s.year, s.month - 1, daysInMonth s.year (s.month - 1)⟩))) ∧
    (¬(s.day = 1 ∧ 27 ≤ e.toOrdinal - s.toOrdinal ∧ e.toOrdinal - s.toOrdinal ≤ 31) →
      ((get_previous_period s e).1.Valid ∧ (get_previous_period s e).2.1.Valid ∧
       (get_previous_period s e).1.toOrdinal =
         s.toOrdinal - (e.toOrdinal - s.toOrdinal + 1) ∧
       (get_previous_period s e).2.1.toOrdinal =
         e.toOrdinal - (e.toOrdinal - s.toOrdinal + 1))) := by
  have hdiff : dateDiff e s = ((e.toOrdinal - s.toOrdinal : Nat) : Int) := by
    unfold dateDiff
    omega
  constructor
  · intro hd h27 h31
    have hcond : s.day = 1 ∧ 27 ≤ dateDiff e s ∧ dateDiff e s ≤ 31 := by
      rw [hdiff]
      exact ⟨hd, by exact_mod_cast h27, by exact_mod_cast h31⟩
    constructor
    · intro hm
      unfold get_previous_period
      rw [if_pos hcond, if_pos hm]
      exact ⟨rfl, rfl⟩
    · intro hm
      have hm1 : ¬(s.month = 1) := by omega
      have hm12 : ¬(s.month - 1 = 12) := by
        obtain ⟨-, -, h12, -, -⟩ := hs
        omega
      unfold get_previous_period
      rw [if_pos hcond, if_neg hm1]
      dsimp only
      rw [if_neg hm12]
      constructor
      · rw [hd]
      · have : s.subDays 1 = Date.pred s := Function.iterate_one Date.pred ▸ rfl
        rw [this]
        unfold Date.pred
        rw [if_neg (by omega : ¬(1 < s.day)), if_pos (by omega : 1 < s.month)]
  · intro hcond
    have hcond2 : ¬(s.day = 1 ∧ 27 ≤ dateDiff e s ∧ dateDiff e s ≤ 31) := by
      rw [hdiff]
      intro ⟨a, b, c⟩
      exact hcond ⟨a, by exact_mod_cast b, by exact_mod_cast c⟩
    have hord1 : 1 + 1 ≤ s.toOrdinal := by omega
    obtain ⟨hval1, hord1e⟩ := Date.subDays_spec s 1 hs hord1
    have hdurle : (e.toOrdinal - s.toOrdinal) + 1 ≤ (s.subDays 1).toOrdinal := by omega
    obtain ⟨hval2, hord2e⟩ :=
      Date.subDays_spec (s.subDays 1) (e.toOrdinal - s.toOrdinal) hval1 hdurle
    unfold get_previous_period
    rw [if_neg hcond2]
    dsimp only
    rw [hdiff]
    have hsub : (s.subDays 1).subDaysI ((e.toOrdinal - s.toOrdinal : Nat) : Int) =
        (s.subDays 1).subDays (e.toOrdinal - s.toOrdinal) := by
      unfold Date.subDaysI
      rw [if_pos (by positivity)]
      rw [Int.toNat_natCast]
    rw [hsub]
    exact ⟨hval2, hval1, by omega, by omega⟩

/-- C3 witness: `previous_period(2026-03-01, 2026-03-31)` is February 2026,
first to last day. -/
theorem C3_get_previous_period_witness :
    (get_previous_period ⟨2026, 3, 1⟩ ⟨2026, 3, 31⟩).1 = ⟨2026, 2, 1⟩ ∧
    (get_previous_period ⟨2026, 3, 1⟩ ⟨2026, 3, 31⟩).2.1 =
      ⟨2026, 2, daysInMonth 2026 2⟩ :=
  ((C3_get_previous_period ⟨2026, 3, 1⟩ ⟨2026, 3, 31⟩ (by decide) (by decide)
      (by decide) (by decide)).1 (by decide) (by decide) (by decide)).2 (by decide)

/-- A two-group account pair for concrete transfer-classifier inputs. -/
def accPersonal : Account :=
  ⟨"a1", "Checking", "111", 0, "DE01", "Personal"⟩

/-- The business-group account of the concrete pair. -/
def accBusiness : Account :=
  ⟨"a2", "Business", "222", 0, "DE02", "Business"⟩

/-- A transaction from the personal account whose counterparty is the
business account's IBAN. -/
def txCross : Transaction :=
  ⟨"x1", "a1", ⟨2026, 5, 2⟩, mkRat 250000 100, "Salary", "", none, none, "DE02"⟩

/-- C4 witness: with a non-empty active-group filter the cross-group salary
transfer is kept iff the two groups differ, and with no filter it is
dropped; a transaction without either signal is always kept. -/
theorem C4_filter_transfers_cases_witness :
    ((txCross ∈ filter_transfers [txCross] [] (some [accPersonal, accBusiness])
        (some ["Personal"]) ↔
      get_account_group txCross.account_id [accPersonal, accBusiness] ≠
        dget (build_iban_to_group [accPersonal, accBusiness]) txCross.counterparty_iban "") ∧
     txCross ∉ filter_transfers [txCross] [] (some [accPersonal, accBusiness]) none) :=
  (C4_filter_transfers_cases [txCross] [] [accPersonal, accBusiness] ["Personal"] txCross
    (List.mem_singleton.mpr rfl) (by decide)).1 (by decide) (by decide)

/-- C10 witness: two different non-empty active-group lists give identical
output, and the empty list behaves as no filter. -/
theorem C10_active_groups_irrelevant_witness :
    filter_transfers [txCross] [] (some [accPersonal, accBusiness]) (some ["Personal"]) =
      filter_transfers [txCross] [] (some [accPersonal, accBusiness]) (some ["Other", "X"]) ∧
    filter_transfers [txCross] [] (some [accPersonal, accBusiness]) (some []) =
      filter_transfers [txCross] [] (some [accPersonal, accBusiness]) none :=
  C10_active_groups_irrelevant [txCross] [] [accPersonal, accBusiness]
    ["Personal"] ["Other", "X"] (by decide) (by decide)

/-! ### Python string helpers (char-list semantics of the `str` methods) -/

/-- ASCII lowercase of one character (Python `str.lower` on the inputs the
engine sees). -/
def lowerChar (c : Char) : Char :=
  if 'A' ≤ c ∧ c ≤ 'Z' then Char.ofNat (c.toNat + 32) else c

/-- Python `str.lower`. -/
def pyLower (s : String) : String :=
  ⟨s.data.map lowerChar⟩

/-- Whitespace for Python `strip`/`split`. -/
def isSpaceChar (c : Char) : Bool :=
  c = ' ' ∨ c = '\t' ∨ c = '\n' ∨ c = '\r'

/-- Python `str.strip`. -/
def pyStrip (s : String) : String :=
  ⟨((s.data.dropWhile isSpaceChar).reverse.dropWhile isSpaceChar).reverse⟩

/-- Python `str.startswith`. -/
def pyStartsWith (s p : String) : Bool :=
  p.data.isPrefixOf s.data

/-- Python `c in s` for a single character. -/
def pyContainsChar (s : String) (c : Char) : Bool :=
  s.data.contains c

/-- Python `str.split()` (whitespace runs, empties dropped). -/
def pySplit (s : String) : List String :=
  ((List.splitOnP isSpaceChar s.data).filter (fun t => t ≠ [])).map (fun t => (⟨t⟩ : String))

/-- Python `s.split(sep, 1)[1]` for a single-character separator that is
known to occur: the characters after its first occurrence. -/
def afterFirstChar (sep : Char) : List Char → List Char
  | [] => []
  | c :: cs => if c = sep then cs else afterFirstChar sep cs

/-- Python `s.split("/")[0]`: the characters before the first `/`. -/
def beforeSlash (s : String) : String :=
  ⟨s.data.takeWhile (fun c => c ≠ '/')⟩

/-- Python `str.isdigit` (ASCII). -/
def pyIsDigit (s : String) : Bool :=
  s.data ≠ [] && s.data.all (fun c => c.isDigit)

/-- Count of digit characters (`sum(c.isdigit() for c in part)`). -/
def countDigits (s : String) : Nat :=
  (s.data.filter (fun c => c.isDigit)).length

/-- Python `" ".join`. -/
def joinSpace : List String → String
  | [] => ""
  | [s] => s
  | s :: rest => s ++ " " ++ joinSpace rest

/-! ### Merchant keyer (`rules.py:39-97`) -/

/-- The PayPal token scan of `_normalize_name`: keep leading parts until one
is all digits or, at length ≥ 3, more than half digits. -/
def paypalCleanParts : List String → List String
  | [] => []
  | part :: rest =>
    if pyIsDigit part || (decide (3 ≤ part.length) && decide (part.length < 2 * countDigits part))
    then []
    else part :: paypalCleanParts rest

/-- `_normalize_name`: strip + lowercase, unwrapping a PayPal envelope. -/
def _normalize_name (name : String) : String :=
  let name := pyLower (pyStrip name)
  if pyStartsWith name "paypal *" || pyStartsWith name "paypal*" then
    let merchant := pyStrip ⟨afterFirstChar '*' name.data⟩
    let clean_parts := paypalCleanParts (pySplit merchant)
    if clean_parts ≠ [] then "paypal:" ++ joinSpace clean_parts else name
  else name

/-- The trailing-token scan of `_extract_merchant_key`: stop at a mixed
alphanumeric code of length ≥ 5 or at a country/city stopword. -/
def cleanTailParts : List String → List String
  | [] => []
  | part :: rest =>
    if decide (5 ≤ part.length) && part.data.any (fun c => c.isDigit) &&
        part.data.any (fun c => c.isAlpha) then []
    else if part ∈ (["lux", "luxembourg", "deu", "che", "esp", "gbr"] : List String) then []
    else part :: cleanTailParts rest

/-- `_extract_merchant_key`: stable merchant grouping key. -/
def _extract_merchant_key (name : String) : String :=
  let normalized := _normalize_name name
  if pyStartsWith normalized "paypal:" then normalized
  else
    let normalized :=
      if pyContainsChar normalized '/' then pyStrip (beforeSlash normalized) else normalized
    match pySplit normalized with
    | p0 :: p1 :: rest => joinSpace (p0 :: cleanTailParts (p1 :: rest))
    | _ => normalized

/-! ### Decimal rounding (`Decimal.quantize`, default `ROUND_HALF_EVEN`) -/

/-- Round a rational to the nearest integer, ties to even. -/
def roundHalfEven (q : Rat) : Int :=
  if q - ⌊q⌋ < 1/2 then ⌊q⌋
  else if (1 : Rat)/2 < q - ⌊q⌋ then ⌊q⌋ + 1
  else if ⌊q⌋ % 2 = 0 then ⌊q⌋ else ⌊q⌋ + 1

/-- `Decimal.quantize(Decimal("0.01"))`. -/
def quantize2 (q : Rat) : Rat :=
  (roundHalfEven (q * 100) : Rat) / 100

/-- `Decimal.quantize(Decimal("0.1"))`. -/
def quantize1 (q : Rat) : Rat :=
  (roundHalfEven (q * 10) : Rat) / 10

/-! ### Recurring detector (`analysis.py:413-495`) -/

/-- A detected recurring transaction (`RecurringTransaction`). -/
structure RecurringTransaction where
  merchant_name : String
  category_name : String
  avg_amount : Rat
  frequency : String
  occurrence_count : Nat
  total_annual_cost : Rat
  last_date : Date
  amount_variance : Rat
deriving DecidableEq, Repr

/-- One step of grouping into a Python `defaultdict(list)`: append to the
existing bucket or open a new one at the end. -/
def groupStep (key : Transaction → String) (groups : List (String × List Transaction))
    (tx : Transaction) : List (String × List Transaction) :=
  let k := key tx
  if groups.any (fun g => g.1 == k) then
    groups.map (fun g => if g.1 == k then (g.1, g.2 ++ [tx]) else g)
  else groups ++ [(k, [tx])]

/-- Grouping into a Python `defaultdict(list)` keyed by a function:
insertion-ordered buckets, each in encounter order. -/
def groupByKey (key : Transaction → String) (txs : List Transaction) :
    List (String × List Transaction) :=
  txs.foldl (groupStep key) []

/-- Insert `x` before the first element `y` with `le x y`; the insertion
step of a stable sort. -/
def insertLe (le : α → α → Bool) (x : α) : List α → List α
  | [] => [x]
  | y :: ys => if le x y then x :: y :: ys else y :: insertLe le x ys

/-- Stable insertion sort. Python's `list.sort` is a stable sort for the
same total preorder, and the stable sort of a list is unique, so this is
extensionally Python's sort. -/
def stableSortLe (le : α → α → Bool) (l : List α) : List α :=
  l.foldr (insertLe le) []

theorem insertLe_perm (le : α → α → Bool) (x : α) (l : List α) :
    (insertLe le x l).Perm (x :: l) := by
  induction l with
  | nil => rfl
  | cons y ys ih =>
    unfold insertLe
    split
    · rfl
    · exact ((ih.cons y).trans (List.Perm.swap x y ys))

theorem stableSortLe_perm (le : α → α → Bool) (l : List α) :
    (stableSortLe le l).Perm l := by
  induction l with
  | nil => rfl
  | cons x xs ih => exact (insertLe_perm le x (stableSortLe le xs)).trans (ih.cons x)

theorem insertLe_pairwise (le : α → α → Bool)
    (htrans : ∀ a b c, le a b = true → le b c = true → le a c = true)
    (htot : ∀ a b, le a b = true ∨ le b a = true) (x : α) (l : List α)
    (hl : l.Pairwise (fun a b => le a b = true)) :
    (insertLe le x l).Pairwise (fun a b => le a b = true) := by
  induction l with
  | nil => exact List.pairwise_singleton _ x
  | cons y ys ih =>
    rw [List.pairwise_cons] at hl
    unfold insertLe
    split
    · rename_i hxy
      refine List.pairwise_cons.mpr ⟨?_, List.pairwise_cons.mpr hl⟩
      intro b hb
      rcases List.mem_cons.mp hb with rfl | hb2
      · exact hxy
      · exact htrans x y b hxy (hl.1 b hb2)
    · rename_i hxy
      have hyx : le y x = true := by
        rcases htot x y with h | h
        · exact absurd h hxy
        · exact h
      refine List.pairwise_cons.mpr ⟨?_, ih hl.2⟩
      intro b hb
      have hb2 := List.mem_cons.mp ((insertLe_perm le x ys).mem_iff.mp hb)
      rcases hb2 with rfl | hb2
      · exact hyx
      · exact hl.1 b hb2

theorem stableSortLe_pairwise (le : α → α → Bool)
    (htrans : ∀ a b c, le a b = true → le b c = true → le a c = true)
    (htot : ∀ a b, le a b = true ∨ le b a = true) (l : List α) :
    (stableSortLe le l).Pairwise (fun a b => le a b = true) := by
  induction l with
  | nil => exact List.Pairwise.nil
  | cons x xs ih => exact insertLe_pairwise le htrans htot x (stableSortLe le xs) ih

/-- `txs.sort(key=lambda t: t.booking_date)` (stable). -/
def sortByDate (txs : List Transaction) : List Transaction :=
  stableSortLe (fun a b => decide (a.booking_date.toOrdinal ≤ b.booking_date.toOrdinal)) txs

/-- Day gaps between consecutive transactions, keeping only positive ones
(`analysis.py:442-446`). -/
def gaps : List Transaction → List Int
  | a :: b :: rest =>
    (if 0 < dateDiff b.booking_date a.booking_date
     then [dateDiff b.booking_date a.booking_date] else []) ++ gaps (b :: rest)
  | _ => []

/-- One step of frequency counting. -/
def countStep (counts : List (String × Nat)) (s : String) : List (String × Nat) :=
  if counts.any (fun p => p.1 == s) then
    counts.map (fun p => if p.1 == s then (p.1, p.2 + 1) else p)
  else counts ++ [(s, 1)]

/-- Frequency counts in first-seen order (`defaultdict(int)`). -/
def countBy (l : List String) : List (String × Nat) :=
  l.foldl countStep []

/-- Python `max(d, key=d.get)`: first key attaining the maximal count. -/
def maxByCount (l : List (String × Nat)) : String :=
  match l with
  | [] => ""
  | p :: rest => (rest.foldl (fun best q => if best.2 < q.2 then q else best) p).1

/-- Maximum of a list of rationals (the groups are never empty). -/
def listMaxQ : List Rat → Rat
  | [] => 0
  | a :: rest => rest.foldl max a

/-- Minimum of a list of rationals. -/
def listMinQ : List Rat → Rat
  | [] => 0
  | a :: rest => rest.foldl min a

/-- The body of the `detect_recurring` per-merchant loop: `none` when the
group is skipped (`continue`), otherwise the produced record. -/
def processGroup (min_occurrences : Nat) (txs : List Transaction) :
    Option RecurringTransaction :=
  if txs.length < min_occurrences then none
  else
    let sorted := sortByDate txs
    let intervals := gaps sorted
    if intervals.isEmpty then none
    else
      let avg_interval : Rat := (intervals.sum : Rat) / (intervals.length : Rat)
      let fm : String × Rat :=
        if avg_interval ≤ 45 then ("monthly", 12)
        else if avg_interval ≤ 120 then ("quarterly", 4)
        else ("annual", 1)
      let amounts := sorted.map (fun tx => tx.amount)
      let avg_amount := quantize2 (amounts.sum / (amounts.length : Rat))
      let absAmounts := amounts.map (fun a => |a|)
      let amount_variance := listMaxQ absAmounts - listMinQ absAmounts
      let total_annual_cost := quantize2 (|avg_amount| * fm.2)
      let category_name :=
        maxByCount (countBy (sorted.map (fun tx => pyOr tx.category_name "(Uncategorized)")))
      let display_name := ((sorted.getLast?).map (fun tx => tx.name)).getD ""
      let last_date := ((sorted.getLast?).map (fun tx => tx.booking_date)).getD ⟨1, 1, 1⟩
      some ⟨display_name, category_name, avg_amount, fm.1, sorted.length,
        total_annual_cost, last_date, amount_variance⟩

/-- `detect_recurring`: recurring transactions sorted by annual cost
descending. -/
def detect_recurring (transactions : List Transaction) (min_occurrences : Nat) :
    List RecurringTransaction :=
  let merchant_txs := groupByKey (fun tx => _extract_merchant_key tx.name) transactions
  let results := merchant_txs.filterMap (fun g => processGroup min_occurrences g.2)
  stableSortLe (fun a b => decide (b.total_annual_cost ≤ a.total_annual_cost)) results

theorem groupStep_forall (key : Transaction → String) (P : Transaction → Prop)
    (groups : List (String × List Transaction)) (tx : Transaction)
    (hg : ∀ g ∈ groups, ∀ t ∈ g.2, P t) (htx : P tx) :
    ∀ g ∈ groupStep key groups tx, ∀ t ∈ g.2, P t := by
  unfold groupStep
  dsimp only
  split
  · intro g hgmem t ht
    rw [List.mem_map] at hgmem
    obtain ⟨g0, hg0, rfl⟩ := hgmem
    by_cases hk : g0.1 == key tx
    · rw [if_pos hk] at ht
      dsimp only at ht
      rcases List.mem_append.mp ht with h | h
      · exact hg g0 hg0 t h
      · rw [List.mem_singleton.mp h]
        exact htx
    · rw [if_neg hk] at ht
      exact hg g0 hg0 t ht
  · intro g hgmem t ht
    rcases List.mem_append.mp hgmem with h | h
    · exact hg g h t ht
    · rw [List.mem_singleton.mp h] at ht
      rw [List.mem_singleton.mp ht]
      exact htx

/-- Every member of every merchant bucket comes from the input list. -/
theorem groupByKey_forall (key : Transaction → String) (P : Transaction → Prop)
    (txs : List Transaction) (hP : ∀ t ∈ txs, P t) :
    ∀ g ∈ groupByKey key txs, ∀ t ∈ g.2, P t := by
  unfold groupByKey
  have main : ∀ (l : List Transaction) (acc : List (String × List Transaction)),
      (∀ t ∈ l, P t) → (∀ g ∈ acc, ∀ t ∈ g.2, P t) →
      ∀ g ∈ l.foldl (groupStep key) acc, ∀ t ∈ g.2, P t := by
    intro l
    induction l with
    | nil =>
      intro acc _ hacc
      simpa using hacc
    | cons x xs ih =>
      intro acc hl hacc
      rw [List.foldl_cons]
      exact ih (groupStep key acc x)
        (fun t ht => hl t (List.mem_cons_of_mem x ht))
        (groupStep_forall key P acc x hacc (hl x (List.mem_cons_self x xs)))
  exact main txs [] hP (by simp)

/-- Membership in `detect_recurring` output is exactly producing a record
from some merchant bucket. -/
theorem mem_detect_recurring (txs : List Transaction) (n : Nat)
    (r : RecurringTransaction) :
    r ∈ detect_recurring txs n ↔
    ∃ g ∈ groupByKey (fun tx => _extract_merchant_key tx.name) txs,
      processGroup n g.2 = some r := by
  unfold detect_recurring
  dsimp only
  rw [(stableSortLe_perm _ _).mem_iff]
  exact List.mem_filterMap

theorem processGroup_below_threshold (n : Nat) (group : List Transaction)
    (h : group.length < n) : processGroup n group = none := by
  unfold processGroup
  rw [if_pos h]

/-- `gaps` of a list whose members all share one booking date is empty. -/
theorem gaps_const_date (l : List Transaction)
    (h : ∀ a ∈ l, ∀ b ∈ l, a.booking_date = b.booking_date) : gaps l = [] := by
  match l with
  | [] => rfl
  | [a] => rfl
  | a :: b :: rest =>
    have hab : b.booking_date = a.booking_date :=
      h b (List.mem_cons_of_mem a (List.mem_cons_self b rest)) a (List.mem_cons_self a _)
    have hd : dateDiff b.booking_date a.booking_date = 0 := by
      unfold dateDiff
      rw [hab]
      omega
    unfold gaps
    rw [hd, if_neg (by omega)]
    rw [List.nil_append]
    exact gaps_const_date (b :: rest)
      (fun x hx y hy => h x (List.mem_cons_of_mem a hx) y (List.mem_cons_of_mem a hy))

theorem processGroup_const_date (n : Nat) (group : List Transaction)
    (h : ∀ a ∈ group, ∀ b ∈ group, a.booking_date = b.booking_date) :
    processGroup n group = none := by
  unfold processGroup
  by_cases hlen : group.length < n
  · rw [if_pos hlen]
  · rw [if_neg hlen]
    dsimp only
    have hmem : ∀ t ∈ sortByDate group, t ∈ group := by
      intro t ht
      exact (stableSortLe_perm _ group).mem_iff.mp ht
    have hg : gaps (sortByDate group) = [] :=
      gaps_const_date _ (fun a ha b hb => h a (hmem a ha) b (hmem b hb))
    rw [hg]
    rfl

/-- Six monthly Netflix-style transactions of -12.99 (28-31 days apart). -/
def netflixTxs : List Transaction :=
  [⟨"t1", "acc1", ⟨2026, 1, 15⟩, mkRat (-1299) 100, "Netflix", "", none, none, ""⟩,
   ⟨"t2", "acc1", ⟨2026, 2, 15⟩, mkRat (-1299) 100, "Netflix", "", none, none, ""⟩,
   ⟨"t3", "acc1", ⟨2026, 3, 15⟩, mkRat (-1299) 100, "Netflix", "", none, none, ""⟩,
   ⟨"t4", "acc1", ⟨2026, 4, 15⟩, mkRat (-1299) 100, "Netflix", "", none, none, ""⟩,
   ⟨"t5", "acc1", ⟨2026, 5, 15⟩, mkRat (-1299) 100, "Netflix", "", none, none, ""⟩,
   ⟨"t6", "acc1", ⟨2026, 6, 15⟩, mkRat (-1299) 100, "Netflix", "", none, none, ""⟩]

/-- The single recurring record the detector yields on `netflixTxs`. -/
def netflixRec : RecurringTransaction :=
  ⟨"Netflix", "(Uncategorized)", mkRat (-1299) 100, "monthly", 6, mkRat 15588 100,
   ⟨2026, 6, 15⟩, 0⟩

set_option maxRecDepth 40000 in
theorem processGroup_netflix : processGroup 3 netflixTxs = some netflixRec := by
  simp only [processGroup]
  rw [show sortByDate netflixTxs = netflixTxs from by decide]
  rw [show gaps netflixTxs = [31, 28, 31, 30, 31] from by decide]
  norm_num [netflixRec, netflixTxs, quantize2, roundHalfEven, listMaxQ, listMinQ,
    maxByCount, countBy, countStep, pyOr, Rat.mkRat_eq_div, List.getLast?]
  rw [show |(1299 : Rat)/100| = 1299/100 from by norm_num]
  norm_num [Int.fract]

set_option maxRecDepth 40000 in
theorem detect_recurring_netflix : detect_recurring netflixTxs 3 = [netflixRec] := by
  unfold detect_recurring
  dsimp only
  rw [show groupByKey (fun tx => _extract_merchant_key tx.name) netflixTxs =
      [("netflix", netflixTxs)] from by decide]
  simp only [List.filterMap_cons, List.filterMap_nil, processGroup_netflix]
  rfl

/-- C5: every `detect_recurring(..., 3)` result comes from a merchant-key
bucket of at least 3 transactions; its cadence and annualized cost follow
the fixed thresholds on the average positive day-gap of the date-sorted
bucket (≤45 monthly ×12, ≤120 quarterly ×4, else annual ×1); a bucket
below the threshold yields nothing; and on six -12.99 transactions spaced
28-31 days apart the detector returns exactly one monthly record with 6
occurrences and average amount -12.99. -/
theorem C5_detect_recurring_cadence :
    (∀ (txs : List Transaction) (r : RecurringTransaction),
      r ∈ detect_recurring txs 3 →
      ∃ g ∈ groupByKey (fun tx => _extract_merchant_key tx.name) txs,
        3 ≤ g.2.length ∧ r.occurrence_count = g.2.length ∧
        gaps (sortByDate g.2) ≠ [] ∧
        (((gaps (sortByDate g.2)).sum : Rat) / ((gaps (sortByDate g.2)).length : Rat) ≤ 45 →
          r.frequency = "monthly" ∧
          r.total_annual_cost = quantize2 (|r.avg_amount| * 12)) ∧
        (45 < ((gaps (sortByDate g.2)).sum : Rat) / ((gaps (sortByDate g.2)).length : Rat) →
          ((gaps (sortByDate g.2)).sum : Rat) / ((gaps (sortByDate g.2)).length : Rat) ≤ 120 →
          r.frequency = "quarterly" ∧
          r.total_annual_cost = quantize2 (|r.avg_amount| * 4)) ∧
        (120 < ((gaps (sortByDate g.2)).sum : Rat) / ((gaps (sortByDate g.2)).length : Rat) →
          r.frequency = "annual" ∧
          r.total_annual_cost = quantize2 (|r.avg_amount| * 1))) ∧
    (∀ (min_occurrences : Nat) (group : List Transaction),
      group.length < min_occurrences → processGroup min_occurrences group = none) ∧
    detect_recurring netflixTxs 3 = [netflixRec] ∧
    netflixRec.frequency = "monthly" ∧ netflixRec.occurrence_count = 6 ∧
    netflixRec.avg_amount = -12.99 := by
  refine ⟨?_, processGroup_below_threshold, detect_recurring_netflix, rfl, rfl, ?_⟩
  · intro txs r hr
    obtain ⟨g, hg, hpg⟩ := (mem_detect_recurring txs 3 r).mp hr
    refine ⟨g, hg, ?_⟩
    unfold processGroup at hpg
    by_cases h1 : g.2.length < 3
    · rw [if_pos h1] at hpg
      exact absurd hpg (by simp)
    rw [if_neg h1] at hpg
    dsimp only at hpg
    by_cases h2 : (gaps (sortByDate g.2)).isEmpty
    · rw [if_pos h2] at hpg
      exact absurd hpg (by simp)
    rw [if_neg h2] at hpg
    have hrec := Option.some.inj hpg
    have hlen : (sortByDate g.2).length = g.2.length :=
      (stableSortLe_perm _ g.2).length_eq
    refine ⟨by omega, ?_, ?_, ?_, ?_, ?_⟩
    · rw [← hrec]
      exact hlen
    · intro hnil
      rw [hnil] at h2
      exact h2 rfl
    · intro h45
      rw [← hrec]
      dsimp only
      rw [if_pos h45]
      exact ⟨rfl, rfl⟩
    · intro h45 h120
      rw [← hrec]
      dsimp only
      rw [if_neg (by exact not_le.mpr h45), if_pos h120]
      exact ⟨rfl, rfl⟩
    · intro h120
      rw [← hrec]
      dsimp only
      rw [if_neg (by exact not_le.mpr (lt_trans (by norm_num) h120)),
        if_neg (by exact not_le.mpr h120)]
      exact ⟨rfl, rfl⟩
  · show mkRat (-1299) 100 = -12.99
    rw [Rat.mkRat_eq_div]
    norm_num

/-- Three transactions at one merchant on a single booking date. -/
def sameDayTxs : List Transaction :=
  [⟨"s1", "acc1", ⟨2026, 4, 1⟩, mkRat (-500) 100, "Gym", "", none, none, ""⟩,
   ⟨"s2", "acc1", ⟨2026, 4, 1⟩, mkRat (-500) 100, "Gym", "", none, none, ""⟩,
   ⟨"s3", "acc1", ⟨2026, 4, 1⟩, mkRat (-500) 100, "Gym", "", none, none, ""⟩]

/-- C9: a merchant bucket whose transactions all share one booking date
yields no recurring record (all gaps are zero and are discarded), even when
its size meets the occurrence threshold; a transaction list all on one date
therefore yields no results at all. -/
theorem C9_same_date_group_skipped :
    (∀ (min_occurrences : Nat) (group : List Transaction),
      (∀ a ∈ group, ∀ b ∈ group, a.booking_date = b.booking_date) →
      processGroup min_occurrences group = none) ∧
    (∀ (min_occurrences : Nat) (txs : List Transaction),
      (∀ a ∈ txs, ∀ b ∈ txs, a.booking_date = b.booking_date) →
      detect_recurring txs min_occurrences = []) ∧
    3 ≤ sameDayTxs.length ∧ detect_recurring sameDayTxs 3 = [] := by
  have hmain : ∀ (min_occurrences : Nat) (txs : List Transaction),
      (∀ a ∈ txs, ∀ b ∈ txs, a.booking_date = b.booking_date) →
      detect_recurring txs min_occurrences = [] := by
    intro n txs h
    unfold detect_recurring
    dsimp only
    have hall : ∀ g ∈ groupByKey (fun tx => _extract_merchant_key tx.name) txs,
        processGroup n g.2 = none := by
      intro g hg
      refine processGroup_const_date n g.2 (fun a ha b hb => ?_)
      have hmem := groupByKey_forall (fun tx => _extract_merchant_key tx.name)
        (fun t => t ∈ txs) txs (fun t ht => ht)
      exact h a (hmem g hg a ha) b (hmem g hg b hb)
    rw [List.filterMap_eq_nil_iff.mpr hall]
    rfl
  refine ⟨processGroup_const_date, hmain, by decide, ?_⟩
  exact hmain 3 sameDayTxs (by decide)

/-! ### Balance history reconstructor (`analysis.py:578-654`) -/

/-- A month-end balance snapshot (`BalanceSnapshot`). -/
structure BalanceSnapshot where
  period_label : String
  account_name : String
  balance : Rat
  change : Rat
deriving DecidableEq, Repr

/-- Code-point lexicographic comparison of char lists (Python `str <`). -/
def listLt : List Char → List Char → Bool
  | [], [] => false
  | [], _ :: _ => true
  | _ :: _, [] => false
  | a :: as, b :: bs =>
    if a.toNat < b.toNat then true
    else if b.toNat < a.toNat then false
    else listLt as bs

/-- Python `a < b` on strings. -/
def pyStrLt (a b : String) : Bool :=
  listLt a.data b.data

/-- `_month_label`: `strftime "%Y-%m"`. -/
def _month_label (d : Date) : String :=
  pad4 d.year ++ "-" ++ pad2 d.month

/-- `acct_monthly[acct_id].get(label, 0)`: the account's net transaction
sum in the labelled month. -/
def acct_month_sum (transactions : List Transaction) (acct_id : String)
    (label : String) : Rat :=
  transactions.foldl
    (fun acc tx =>
      if tx.account_id == acct_id && _month_label tx.booking_date == label then
        acc + tx.amount
      else acc)
    0

/-- `(d - timedelta(days=1)).replace(day=1)`: first day of the previous
month. -/
def prevMonthFirst (d : Date) : Date :=
  let e := d.subDays 1
  ⟨e.year, e.month, 1⟩

/-- The month labels from `d`'s month going backwards, newest first. -/
def monthLabelsDesc (d : Date) : Nat → List String
  | 0 => []
  | n + 1 => _month_label d :: monthLabelsDesc (prevMonthFirst d) n

/-- The per-account inner loop over `all_months` past index 0: subtract the
processed month's own sum from the running balance and record it, newest
month first (`analysis.py:639-648`). -/
def snapshotsTail (acc : Account) (txs : List Transaction) (balance : Rat) :
    List String → List BalanceSnapshot
  | [] => []
  | month :: rest =>
    let month_sum := acct_month_sum txs acc.id month
    let balance2 := balance - month_sum
    ⟨month, acc.name, balance2, month_sum⟩ :: snapshotsTail acc txs balance2 rest

/-- The per-account snapshot list, reversed to chronological order
(`analysis.py:619-652`); index 0 reports the current balance. -/
def accountSnapshots (acc : Account) (txs : List Transaction)
    (all_months : List String) : List BalanceSnapshot :=
  match all_months with
  | [] => []
  | month0 :: rest =>
    ((⟨month0, acc.name, acc.balance, acct_month_sum txs acc.id month0⟩ :
        BalanceSnapshot) :: snapshotsTail acc txs acc.balance rest).reverse

/-- `compute_balance_history`; `today` is the externally supplied current
date. -/
def compute_balance_history (accounts : List Account) (transactions : List Transaction)
    (months : Nat) (today : Date) : List BalanceSnapshot :=
  let month_labels := (monthLabelsDesc ⟨today.year, today.month, 1⟩ months).reverse
  let all_months := stableSortLe (fun a b => !pyStrLt a b) month_labels
  accounts.foldl (fun results acc => results ++ accountSnapshots acc transactions all_months) []

/-- The account of the C2 failing input: current balance 1000.00. -/
def acctC2 : Account :=
  ⟨"g1", "Girokonto", "333", mkRat 100000 100, "DE03", "Haupt"⟩

/-- The single transaction of the C2 failing input: +500.00 in the current
month (June 2026). -/
def txC2 : Transaction :=
  ⟨"b1", "g1", ⟨2026, 6, 5⟩, mkRat 50000 100, "Income", "", none, none, ""⟩

/-- C2 evaluation: with current balance 1000.00 and a single +500.00
transaction in the current month, the code reports the previous month's
(May 2026) end-of-month balance as 1000.00 - it subtracts May's own (zero)
sum instead of the more recent June sum, so it does not equal the current
balance minus June's net sum (500.00) as the claim requires. -/
theorem C2_balance_history_failing_input :
    compute_balance_history [acctC2] [txC2] 2 ⟨2026, 6, 15⟩ =
      [⟨"2026-05", "Girokonto", mkRat 100000 100, 0⟩,
       ⟨"2026-06", "Girokonto", mkRat 100000 100, mkRat 50000 100⟩] ∧
    ¬((compute_balance_history [acctC2] [txC2] 2 ⟨2026, 6, 15⟩).map
        BalanceSnapshot.balance =
      [acctC2.balance - acct_month_sum [txC2] acctC2.id "2026-06", acctC2.balance]) := by
  have heval : compute_balance_history [acctC2] [txC2] 2 ⟨2026, 6, 15⟩ =
      [⟨"2026-05", "Girokonto", mkRat 100000 100, 0⟩,
       ⟨"2026-06", "Girokonto", mkRat 100000 100, mkRat 50000 100⟩] := by
    unfold compute_balance_history
    dsimp only
    rw [show stableSortLe (fun a b => !pyStrLt a b)
        ((monthLabelsDesc ⟨2026, 6, 1⟩ 2).reverse) = ["2026-06", "2026-05"] from by decide]
    rw [List.foldl_cons, List.foldl_nil, List.nil_append]
    unfold accountSnapshots snapshotsTail
    dsimp only
    rw [show acct_month_sum [txC2] acctC2.id "2026-06" = mkRat 50000 100 from by
      unfold acct_month_sum
      rw [List.foldl_cons, List.foldl_nil, if_pos (by decide)]
      norm_num [txC2, Rat.mkRat_eq_div]]
    rw [show acct_month_sum [txC2] acctC2.id "2026-05" = 0 from by
      unfold acct_month_sum
      rw [List.foldl_cons, List.foldl_nil, if_neg (by decide)]]
    norm_num [acctC2, Rat.mkRat_eq_div, snapshotsTail]
  refine ⟨heval, ?_⟩
  rw [heval]
  intro h
  have h1 : (mkRat 100000 100 : Rat) =
      acctC2.balance - acct_month_sum [txC2] acctC2.id "2026-06" := by
    have := congrArg (fun l => l.headD 0) h
    simpa using this
  rw [show acct_month_sum [txC2] acctC2.id "2026-06" = mkRat 50000 100 from by
      unfold acct_month_sum
      rw [List.foldl_cons, List.foldl_nil, if_pos (by decide)]
      norm_num [txC2, Rat.mkRat_eq_div]] at h1
  rw [Rat.mkRat_eq_div, Rat.mkRat_eq_div] at h1
  norm_num [acctC2, Rat.mkRat_eq_div] at h1

/-! ### Spending aggregator (`analysis.py:256-350`) -/

/-- Per-category spending analysis (`SpendingAnalysis`). -/
structure SpendingAnalysis where
  category_name : String
  category_path : String
  category_type : CategoryType
  actual : Rat
  budget : Option Rat
  budget_period : String
  remaining : Option Rat
  percent_used : Option Rat
  transaction_count : Nat
  compare_actual : Option Rat
  compare_change : Option Rat
deriving DecidableEq, Repr

/-- Lookup in a dict of categories (last write wins). -/
def dgetCat (l : List (String × Category)) (k : String) : Option Category :=
  l.foldl (fun acc p => if p.1 == k then some p.2 else acc) none

/-- Lookup in a dict of rationals. -/
def dgetQ (l : List (String × Rat)) (k : String) : Option Rat :=
  l.foldl (fun acc p => if p.1 == k then some p.2 else acc) none

/-- The aggregation state per category name: running sum, count, resolved
category. -/
def SpendEntry : Type := Rat × Nat × Option Category

/-- Insertion-ordered dict update. -/
def updateAssoc (current : List (String × SpendEntry)) (key : String) (e : SpendEntry) :
    List (String × SpendEntry) :=
  if current.any (fun p => p.1 == key) then
    current.map (fun p => if p.1 == key then (key, e) else p)
  else current ++ [(key, e)]

/-- One iteration of the `compute_spending` aggregation loop
(`analysis.py:282-289`). -/
def spendStep (cat_by_id cat_by_name : List (String × Category))
    (current : List (String × SpendEntry)) (tx : Transaction) :
    List (String × SpendEntry) :=
  let key := pyOr tx.category_name "(Uncategorized)"
  let old : SpendEntry :=
    match (current.find? (fun p => p.1 == key)).map (fun p => p.2) with
    | some e => e
    | none => ((0 : Rat), 0, none)
  let cat0 : Option Category := old.2.2
  let cat1 : Option Category :=
    match tx.category_id with
    | some cid =>
      if cid ≠ "" then
        match dgetCat cat_by_id cid with
        | some c => some c
        | none =>
          match cat0 with
          | none => dgetCat cat_by_name key
          | some c => some c
      else
        match cat0 with
        | none => dgetCat cat_by_name key
        | some c => some c
    | none =>
      match cat0 with
      | none => dgetCat cat_by_name key
      | some c => some c
  updateAssoc current key (old.1 + tx.amount, old.2.1 + 1, cat1)

/-- The comparison-period aggregation (`analysis.py:292-296`). -/
def compareSums (compare_transactions : List Transaction) : List (String × Rat) :=
  compare_transactions.foldl
    (fun m tx =>
      let key := pyOr tx.category_name "(Uncategorized)"
      let v := (dgetQ m key).getD 0 + tx.amount
      if m.any (fun p => p.1 == key) then
        m.map (fun p => if p.1 == key then (key, v) else p)
      else m ++ [(key, v)])
    []

/-- Python truthiness-and-positivity test `b and b > 0` on an optional
Decimal. -/
def budgetPos (b? : Option Rat) : Bool :=
  match b? with
  | some b => decide (b ≠ 0) && decide (0 < b)
  | none => false

/-- Building one `SpendingAnalysis` from an aggregated entry
(`analysis.py:300-345`). -/
def buildSpend (compare : List (String × Rat)) (p : String × SpendEntry) :
    SpendingAnalysis :=
  let cat_name := p.1
  let actual := p.2.1
  let count := p.2.2.1
  let budgetInfo : Option Rat × String × String × CategoryType :=
    match p.2.2.2 with
    | some c =>
      (if budgetPos c.budget then c.budget else none,
       if budgetPos c.budget then c.budget_period else "",
       (if c.path ≠ "" then c.path else c.name), c.category_type)
    | none => (none, "", cat_name, CategoryType.expense)
  let budget := budgetInfo.1
  let remaining : Option Rat :=
    if budgetPos budget then
      match budget with
      | some b => some (b - |actual|)
      | none => none
    else none
  let percent_used : Option Rat :=
    if budgetPos budget then
      match budget with
      | some b => some (quantize1 (|actual| / b * 100))
      | none => none
    else none
  let compare_actual : Option Rat :=
    if compare.isEmpty then none else dgetQ compare cat_name
  let compare_change : Option Rat :=
    match compare_actual with
    | some ca => if ca ≠ 0 then some (quantize1 ((|actual| - |ca|) / |ca| * 100)) else none
    | none => none
  ⟨cat_name, budgetInfo.2.2.1, budgetInfo.2.2.2, actual, budget, budgetInfo.2.1,
   remaining, percent_used, count, compare_actual, compare_change⟩

/-- The `compute_spending` result list before the final sort, in category
encounter order (`analysis.py:271-345`). -/
def computeSpendingUnsorted (transactions : List Transaction) (categories : List Category)
    (compare_transactions : Option (List Transaction)) : List SpendingAnalysis :=
  let cat_by_id := categories.map (fun c => (c.id, c))
  let cat_by_name := (categories.filter (fun c => !c.group)).map (fun c => (c.name, c))
  let current := transactions.foldl (spendStep cat_by_id cat_by_name) []
  let compare : List (String × Rat) :=
    match compare_transactions with
    | some ctxs => if ctxs.isEmpty then [] else compareSums ctxs
    | none => []
  current.map (buildSpend compare)

/-- `compute_spending`: per-category aggregation with budgets and optional
period-over-period comparison, sorted by absolute amount descending
(stable, as Python's `list.sort`). -/
def compute_spending (transactions : List Transaction) (categories : List Category)
    (compare_transactions : Option (List Transaction)) : List SpendingAnalysis :=
  stableSortLe (fun a b => decide (|b.actual| ≤ |a.actual|))
    (computeSpendingUnsorted transactions categories compare_transactions)

theorem buildSpend_budget (compare : List (String × Rat)) (p : String × SpendEntry)
    (b : Rat) (hb : (buildSpend compare p).budget = some b) :
    0 < b ∧
    (buildSpend compare p).remaining = some (b - |(buildSpend compare p).actual|) ∧
    (buildSpend compare p).percent_used =
      some (quantize1 (|(buildSpend compare p).actual| / b * 100)) := by
  unfold buildSpend at hb ⊢
  dsimp only at hb ⊢
  rcases hcat : p.2.2.2 with _ | c
  · rw [hcat] at hb
    exact absurd hb (by simp)
  · rw [hcat] at hb
    dsimp only at hb ⊢
    by_cases hbp : budgetPos c.budget = true
    · rw [if_pos hbp] at hb
      have hbp2 := hbp
      rw [hb] at hbp2
      have hpos : 0 < b := by
        simp only [budgetPos, Bool.and_eq_true, decide_eq_true_eq] at hbp2
        exact hbp2.2
      refine ⟨hpos, ?_, ?_⟩
      · rw [if_pos hbp, hb, if_pos (by rw [hb] at hbp; exact hbp)]
      · rw [if_pos hbp, hb, if_pos (by rw [hb] at hbp; exact hbp)]
    · rw [if_neg hbp] at hb
      exact absurd hb (by simp)

theorem buildSpend_compare (compare : List (String × Rat)) (p : String × SpendEntry)
    (ca : Rat) (hc : (buildSpend compare p).compare_actual = some ca) (hne : ca ≠ 0) :
    (buildSpend compare p).compare_change =
      some (quantize1 ((|(buildSpend compare p).actual| - |ca|) / |ca| * 100)) := by
  unfold buildSpend at hc ⊢
  dsimp only at hc ⊢
  rw [hc]
  dsimp only
  rw [if_pos hne]

/-- The grocery category of the C6 example: budget 500.00. -/
def catGroceries : Category :=
  ⟨"c1", "Groceries", CategoryType.expense, some (mkRat 50000 100), "monthly", false, "",
   "Ausgaben/Groceries"⟩

/-- The salary category of the C6 example: no budget. -/
def catSalary : Category :=
  ⟨"c2", "Salary", CategoryType.income, none, "", false, "", "Einnahmen/Salary"⟩

/-- The income transaction of the C6 example: +3500.00 once. -/
def tSal : Transaction :=
  ⟨"p1", "a1", ⟨2026, 5, 2⟩, mkRat 350000 100, "Employer", "", some "c2", some "Salary", ""⟩

/-- First grocery expense of the C6 example: -45.00. -/
def tG1 : Transaction :=
  ⟨"p2", "a1", ⟨2026, 5, 3⟩, mkRat (-4500) 100, "Store", "", some "c1", some "Groceries", ""⟩

/-- Second grocery expense of the C6 example: -30.00. -/
def tG2 : Transaction :=
  ⟨"p3", "a1", ⟨2026, 5, 10⟩, mkRat (-3000) 100, "Store", "", some "c1", some "Groceries", ""⟩

set_option maxRecDepth 40000 in
theorem spend_current_example :
    List.foldl
      (spendStep [("c1", catGroceries), ("c2", catSalary)]
        [("Groceries", catGroceries), ("Salary", catSalary)])
      [] [tSal, tG1, tG2] =
      [("Salary", ((3500 : Rat), 1, some catSalary)),
       ("Groceries", ((-75 : Rat), 2, some catGroceries))] := by
  have h1 : spendStep [("c1", catGroceries), ("c2", catSalary)]
      [("Groceries", catGroceries), ("Salary", catSalary)] [] tSal =
      [("Salary", ((3500 : Rat), 1, some catSalary))] := by
    norm_num +decide [spendStep, updateAssoc, dgetCat, pyOr, tSal, Rat.mkRat_eq_div]
  have h2 : spendStep [("c1", catGroceries), ("c2", catSalary)]
      [("Groceries", catGroceries), ("Salary", catSalary)]
      [("Salary", ((3500 : Rat), 1, some catSalary))] tG1 =
      [("Salary", ((3500 : Rat), 1, some catSalary)),
       ("Groceries", ((-45 : Rat), 1, some catGroceries))] := by
    norm_num +decide [spendStep, updateAssoc, dgetCat, pyOr, tG1, Rat.mkRat_eq_div]
  have h3 : spendStep [("c1", catGroceries), ("c2", catSalary)]
      [("Groceries", catGroceries), ("Salary", catSalary)]
      [("Salary", ((3500 : Rat), 1, some catSalary)),
       ("Groceries", ((-45 : Rat), 1, some catGroceries))] tG2 =
      [("Salary", ((3500 : Rat), 1, some catSalary)),
       ("Groceries", ((-75 : Rat), 2, some catGroceries))] := by
    norm_num +decide [spendStep, updateAssoc, dgetCat, pyOr, tG2, Rat.mkRat_eq_div]
  rw [List.foldl_cons, h1, List.foldl_cons, h2, List.foldl_cons, h3, List.foldl_nil]

set_option maxRecDepth 40000 in
theorem spend_build_salary :
    buildSpend [] ("Salary", ((3500 : Rat), 1, some catSalary)) =
      ⟨"Salary", "Einnahmen/Salary", CategoryType.income, 3500, none, "", none, none, 1,
       none, none⟩ := by
  norm_num +decide [buildSpend, budgetPos, dgetQ, catSalary]

set_option maxRecDepth 40000 in
theorem spend_build_groceries :
    buildSpend [] ("Groceries", ((-75 : Rat), 2, some catGroceries)) =
      ⟨"Groceries", "Ausgaben/Groceries", CategoryType.expense, -75, some 500, "monthly",
       some 425, some 15, 2, none, none⟩ := by
  norm_num +decide [buildSpend, budgetPos, dgetQ, catGroceries, Rat.mkRat_eq_div]
  norm_num [quantize1, roundHalfEven, Int.fract]

/-- The income result of the C6 example. -/
def salRec : SpendingAnalysis :=
  ⟨"Salary", "Einnahmen/Salary", CategoryType.income, 3500, none, "", none, none, 1,
   none, none⟩

/-- The grocery result of the C6 example: `remaining = 425`,
`percent_used = 15.0`. -/
def grocRec : SpendingAnalysis :=
  ⟨"Groceries", "Ausgaben/Groceries", CategoryType.expense, -75, some 500, "monthly",
   some 425, some 15, 2, none, none⟩

set_option maxRecDepth 40000 in
theorem spend_example :
    compute_spending [tSal, tG1, tG2] [catGroceries, catSalary] none = [salRec, grocRec] := by
  unfold compute_spending computeSpendingUnsorted
  dsimp only
  rw [show List.map (fun c => (c.id, c)) [catGroceries, catSalary] =
      [("c1", catGroceries), ("c2", catSalary)] from by decide]
  rw [show List.map (fun c => (c.name, c)) (List.filter (fun c => !c.group)
      [catGroceries, catSalary]) =
      [("Groceries", catGroceries), ("Salary", catSalary)] from by decide]
  rw [spend_current_example]
  rw [List.map_cons, List.map_cons, List.map_nil, spend_build_salary, spend_build_groceries]
  unfold stableSortLe
  rw [List.foldr_cons, List.foldr_cons, List.foldr_nil]
  rw [show insertLe (fun a b => decide (|b.actual| ≤ |a.actual|))
      (⟨"Groceries", "Ausgaben/Groceries", CategoryType.expense, -75, some 500, "monthly",
        some 425, some 15, 2, none, none⟩ : SpendingAnalysis) [] =
      [⟨"Groceries", "Ausgaben/Groceries", CategoryType.expense, -75, some 500, "monthly",
        some 425, some 15, 2, none, none⟩] from rfl]
  unfold insertLe
  rw [if_pos (by norm_num : ((fun (a b : SpendingAnalysis) => decide (|b.actual| ≤ |a.actual|))
    (⟨"Salary", "Einnahmen/Salary", CategoryType.income, 3500, none, "", none, none, 1,
      none, none⟩ : SpendingAnalysis)
    (⟨"Groceries", "Ausgaben/Groceries", CategoryType.expense, -75, some 500, "monthly",
      some 425, some 15, 2, none, none⟩ : SpendingAnalysis)) = true)]
  rfl

theorem insertLe_decomp (le : α → α → Bool) (x : α) (l : List α) :
    ∃ l1 l2, insertLe le x l = l1 ++ x :: l2 ∧ l = l1 ++ l2 ∧ ∀ y ∈ l1, le x y = false := by
  induction l with
  | nil => exact ⟨[], [], rfl, rfl, by simp⟩
  | cons y ys ih =>
    by_cases h : le x y = true
    · exact ⟨[], y :: ys, by unfold insertLe; rw [if_pos h]; rfl, rfl, by simp⟩
    · obtain ⟨l1, l2, h1, h2, h3⟩ := ih
      refine ⟨y :: l1, l2, ?_, ?_, ?_⟩
      · unfold insertLe
        rw [if_neg h, h1]
        rfl
      · rw [List.cons_append, ← h2]
      · intro z hz
        rcases List.mem_cons.mp hz with rfl | hz2
        · exact eq_false_of_ne_true h
        · exact h3 z hz2

theorem filter_insertLe (le : α → α → Bool) (q : α → Bool) (x : α) (l : List α)
    (hkey : q x = true → ∀ y, le x y = false → q y = false) :
    (insertLe le x l).filter q = if q x = true then x :: l.filter q else l.filter q := by
  obtain ⟨l1, l2, h1, h2, h3⟩ := insertLe_decomp le x l
  rw [h1, h2]
  rw [List.filter_append, List.filter_cons, List.filter_append]
  by_cases hq : q x = true
  · rw [if_pos hq, if_pos hq]
    have hl1 : l1.filter q = [] := by
      rw [List.filter_eq_nil_iff]
      intro y hy
      rw [hkey hq y (h3 y hy)]
      exact Bool.false_ne_true
    rw [hl1]
    rfl
  · rw [if_neg hq, if_neg hq]

/-- A stable sort leaves each comparator-equivalence class in its original
order: filtering on a key value commutes with the sort. -/
theorem filter_stableSortLe (le : α → α → Bool) (q : α → Bool)
    (hkey : ∀ x, q x = true → ∀ y, le x y = false → q y = false) :
    ∀ l : List α, (stableSortLe le l).filter q = l.filter q := by
  intro l
  induction l with
  | nil => rfl
  | cons x xs ih =>
    show (insertLe le x (stableSortLe le xs)).filter q = _
    rw [filter_insertLe le q x _ (hkey x), ih, List.filter_cons]

/-- C6: in every `compute_spending` result with a (positive) budget,
`remaining = budget - |actual|` and `percent_used = |actual|/budget*100`
rounded to one decimal; with a non-zero prior total, `compare_change =
(|actual| - |prior|)/|prior|*100` rounded to one decimal; the output is
sorted by `|actual|` descending with ties kept in encounter order (the
entries of each `|actual|` class appear exactly as in the unsorted
encounter-order list); and on the spec's two-group example the income
entry sorts first and the expense entry's remaining is 425.00. -/
theorem C6_compute_spending_budget_compare :
    (∀ (txs : List Transaction) (cats : List Category) (cmp : Option (List Transaction)),
      (∀ r ∈ compute_spending txs cats cmp,
        (∀ b, r.budget = some b →
          0 < b ∧ r.remaining = some (b - |r.actual|) ∧
          r.percent_used = some (quantize1 (|r.actual| / b * 100))) ∧
        (∀ ca, r.compare_actual = some ca → ca ≠ 0 →
          r.compare_change = some (quantize1 ((|r.actual| - |ca|) / |ca| * 100)))) ∧
      (compute_spending txs cats cmp).Pairwise (fun a b => |b.actual| ≤ |a.actual|) ∧
      (∀ v : Rat, (compute_spending txs cats cmp).filter (fun r => decide (|r.actual| = v)) =
        (computeSpendingUnsorted txs cats cmp).filter (fun r => decide (|r.actual| = v)))) ∧
    compute_spending [tSal, tG1, tG2] [catGroceries, catSalary] none = [salRec, grocRec] ∧
    grocRec.remaining = some 425 ∧ salRec.actual = 3500 := by
  refine ⟨?_, spend_example, rfl, rfl⟩
  intro txs cats cmp
  refine ⟨?_, ?_, ?_⟩
  · intro r hr
    unfold compute_spending at hr
    have hr2 := (stableSortLe_perm _ _).mem_iff.mp hr
    unfold computeSpendingUnsorted at hr2
    dsimp only at hr2
    rw [List.mem_map] at hr2
    obtain ⟨p, hp, hpeq⟩ := hr2
    rw [← hpeq]
    exact ⟨fun b hb => buildSpend_budget _ p b hb,
           fun ca hc hne => buildSpend_compare _ p ca hc hne⟩
  · unfold compute_spending
    refine (stableSortLe_pairwise
      (fun (a b : SpendingAnalysis) => decide (|b.actual| ≤ |a.actual|))
      (fun a b c hab hbc => by
        simp only [decide_eq_true_eq] at hab hbc ⊢
        exact le_trans hbc hab)
      (fun a b => by
        simp only [decide_eq_true_eq]
        exact le_total |b.actual| |a.actual|)
      _).imp (fun h => by simpa only [decide_eq_true_eq] using h)
  · intro v
    unfold compute_spending
    refine filter_stableSortLe _ _ ?_ _
    intro x hx y hxy
    simp only [decide_eq_true_eq] at hx
    rw [decide_eq_false_iff_not] at hxy ⊢
    intro hyv
    rw [hyv, ← hx] at hxy
    exact hxy le_rfl

/-! ### Rule suggestion engine (`rules.py:100-248`) -/

/-- A suggested auto-categorization rule (`RuleSuggestion`); the
presentation-only `sample_transactions` field is omitted. -/
structure RuleSuggestion where
  pattern : String
  suggested_category : String
  category_path : String
  match_count : Nat
  total_amount : Rat
  confidence : String
  existing_rule : String
deriving DecidableEq, Repr

/-- `name_to_cats`: per merchant key, the `(category_name or "", path)`
pairs of the categorized history, in encounter order
(`rules.py:136-145`). -/
def nameCatsStep (categories : List Category)
    (m : List (String × List (String × String))) (tx : Transaction) :
    List (String × List (String × String)) :=
  let key := _extract_merchant_key tx.name
  let cat_path :=
    match tx.category_id with
    | some cid =>
      match categories.find? (fun c => c.id == cid) with
      | some c => c.path
      | none => pyOr tx.category_name ""
    | none => pyOr tx.category_name ""
  let pair := (pyOr tx.category_name "", cat_path)
  if m.any (fun p => p.1 == key) then
    m.map (fun p => if p.1 == key then (p.1, p.2 ++ [pair]) else p)
  else m ++ [(key, [pair])]

def name_to_cats (categories : List Category) (categorized : List Transaction) :
    List (String × List (String × String)) :=
  categorized.foldl (nameCatsStep categories) []

/-- `Counter(l).most_common(1)[0]`: the first-seen value attaining the
maximal multiplicity, with its count. -/
def mostCommonFirst (l : List String) : String × Nat :=
  match countBy l with
  | [] => ("", 0)
  | p :: rest => rest.foldl (fun best q => if best.2 < q.2 then q else best) p

/-- The path scan: first entry with the given category name
(`rules.py:172-174`). -/
def findPath (entries : List (String × String)) (name : String) : String :=
  match entries.find? (fun e => e.1 == name) with
  | some e => e.2
  | none => ""

/-- The prefix-match test of the fallback branch (`rules.py:181-182`):
shared length ≥ 6 compared over at most the first 8 characters. -/
def prefixHit (mk ck : String) : Bool :=
  let min_len := min mk.length ck.length
  decide (6 ≤ min_len) && (mk.data.take (min 8 min_len) == ck.data.take (min 8 min_len))

/-- ASCII uppercase of one character. -/
def upperChar (c : Char) : Char :=
  if 'a' ≤ c ∧ c ≤ 'z' then Char.ofNat (c.toNat - 32) else c

/-- Python `str.title` on a char list; the flag records whether the
previous character was a letter. -/
def titleChars : Bool → List Char → List Char
  | _, [] => []
  | prevAlpha, c :: cs =>
    (if c.isAlpha then (if prevAlpha then lowerChar c else upperChar c) else c) ::
      titleChars c.isAlpha cs

/-- Python `str.title`. -/
def pyTitle (s : String) : String :=
  ⟨titleChars false s.data⟩

/-- Python `s.replace(pat, "")` with `pat` non-empty; the fuel is the input
length, enough since every step consumes at least one character. -/
def removeAllAux (pat : List Char) : Nat → List Char → List Char
  | 0, l => l
  | _, [] => []
  | fuel + 1, c :: cs =>
    if pat.isPrefixOf (c :: cs) then removeAllAux pat fuel ((c :: cs).drop pat.length)
    else c :: removeAllAux pat fuel cs

/-- Python `s.replace(pat, "")`. -/
def pyRemoveAll (s pat : String) : String :=
  ⟨removeAllAux pat.data s.data.length s.data⟩

/-- Python `s.strip(Chr)` for one strip character. -/
def pyStripChar (s : String) (c : Char) : String :=
  ⟨((s.data.dropWhile (fun x => x = c)).reverse.dropWhile (fun x => x = c)).reverse⟩

/-- The `while not n.lower().startswith(prefix.lower()) and len(prefix) > 3`
shrink loop (`rules.py:208-209`); the fuel is the prefix length. -/
def shrinkAux (nLower : List Char) : Nat → List Char → List Char
  | 0, pr => pr
  | fuel + 1, pr =>
    if (pr.map lowerChar).isPrefixOf nLower || decide (pr.length ≤ 3) then pr
    else shrinkAux nLower fuel pr.dropLast

/-- Shrink `pr` until it is a case-insensitive prefix of `n` or has length
≤ 3. -/
def shrinkToMatch (n pr : String) : String :=
  ⟨shrinkAux (n.data.map lowerChar) pr.data.length pr.data⟩

/-- The rule-pattern derivation (`rules.py:192-210`). -/
def buildPattern (merchant_key : String) (txs : List Transaction) : String :=
  match txs with
  | [] => ""
  | t0 :: rest =>
    let first_name := pyStrip t0.name
    if pyStartsWith merchant_key "paypal:" then
      let merchant_part := pyRemoveAll merchant_key "paypal:"
      "\"PayPal *" ++ pyTitle merchant_part ++ "\""
    else
      if rest.isEmpty then "\"" ++ first_name ++ "\""
      else
        let names := (t0 :: rest).map (fun tx => pyStrip tx.name)
        let pr := names.tail.foldl (fun pr n => shrinkToMatch n pr) (names.headD "")
        if decide (3 < pr.length) then "\"" ++ pyStrip pr ++ "\""
        else "\"" ++ first_name ++ "\""

/-- Substring containment on char lists (Python `x in y`). -/
def isSubstr : List Char → List Char → Bool
  | needle, hay =>
    needle.isPrefixOf hay ||
      match hay with
      | [] => false
      | _ :: t => isSubstr needle t

/-- `_check_existing_rules`: first category whose raw rule text contains
the pattern, case-insensitively. -/
def _check_existing_rules (pattern : String) (categories : List Category) :
    String × String × String :=
  let pattern_lower := pyStripChar (pyLower pattern) '"'
  match categories.find?
      (fun cat => cat.rules ≠ "" && isSubstr pattern_lower.data (pyLower cat.rules).data) with
  | some cat => (cat.name, cat.path, cat.rules)
  | none => ("", "", "")

/-- The per-group body of the `suggest_rules` loop (`rules.py:156-240`);
the `seen_patterns` check of the source never fires because the groups'
keys are distinct. -/
def suggestionFor (m : List (String × List (String × String)))
    (categories : List Category) (kg : String × List Transaction) : RuleSuggestion :=
  let merchant_key := kg.1
  let txs := kg.2
  let scp : String × String × String :=
    match m.find? (fun p => p.1 == merchant_key) with
    | some p =>
      let mc := mostCommonFirst (p.2.map (fun e => e.1))
      (mc.1, findPath p.2 mc.1, if 3 ≤ mc.2 then "high" else "medium")
    | none =>
      match m.find? (fun p => prefixHit merchant_key p.1) with
      | some p =>
        let mc := mostCommonFirst (p.2.map (fun e => e.1))
        (mc.1, findPath p.2 mc.1, if 2 ≤ mc.2 then "medium" else "low")
      | none => ("", "", "low")
  let pattern := buildPattern merchant_key txs
  let existing := _check_existing_rules (pyStripChar pattern '"') categories
  let total := (txs.map (fun tx => tx.amount)).sum
  ⟨pattern,
   if scp.1 ≠ "" then scp.1 else "(needs manual assignment)",
   scp.2.1, txs.length, total,
   if scp.1 ≠ "" then scp.2.2 else "low",
   existing.2.2⟩

/-- The confidence rank used by the final sort (`rules.py:243`). -/
def confOrder (c : String) : Nat :=
  if c == "high" then 0 else if c == "medium" then 1 else if c == "low" then 2 else 3

/-- The final sort key comparison: confidence rank ascending, match count
descending, total amount ascending (`rules.py:244-246`). -/
def suggKeyLe (a b : RuleSuggestion) : Bool :=
  if confOrder a.confidence ≠ confOrder b.confidence then
    decide (confOrder a.confidence < confOrder b.confidence)
  else if a.match_count ≠ b.match_count then decide (b.match_count < a.match_count)
  else decide (a.total_amount ≤ b.total_amount)

/-- `suggest_rules`: rule suggestions for the uncategorized groups. -/
def suggest_rules (uncategorized categorized : List Transaction)
    (categories : List Category) : List RuleSuggestion :=
  let m := name_to_cats categories categorized
  let groups := groupByKey (fun tx => _extract_merchant_key tx.name) uncategorized
  let suggestions := groups.map (suggestionFor m categories)
  stableSortLe suggKeyLe suggestions

theorem nameCatsStep_entries (categories : List Category) (P : String → Prop)
    (m : List (String × List (String × String))) (tx : Transaction)
    (hm : ∀ p ∈ m, p.2 ≠ [] ∧ ∀ e ∈ p.2, P e.1)
    (htx : P (pyOr tx.category_name "")) :
    ∀ p ∈ nameCatsStep categories m tx, p.2 ≠ [] ∧ ∀ e ∈ p.2, P e.1 := by
  unfold nameCatsStep
  dsimp only
  split
  · intro p hp
    rw [List.mem_map] at hp
    obtain ⟨p0, hp0, rfl⟩ := hp
    by_cases hk : p0.1 == _extract_merchant_key tx.name
    · rw [if_pos hk]
      refine ⟨by simp, ?_⟩
      intro e he
      rcases List.mem_append.mp he with h | h
      · exact (hm p0 hp0).2 e h
      · rw [List.mem_singleton.mp h]
        exact htx
    · rw [if_neg hk]
      exact hm p0 hp0
  · intro p hp
    rcases List.mem_append.mp hp with h | h
    · exact hm p h
    · rw [List.mem_singleton.mp h]
      exact ⟨by simp, fun e he => by rw [List.mem_singleton.mp he]; exact htx⟩

/-- Every history bucket is non-empty and all its recorded category names
satisfy the property the categorized input satisfies. -/
theorem name_to_cats_entries (categories : List Category) (categorized : List Transaction)
    (P : String → Prop) (hcat : ∀ tx ∈ categorized, P (pyOr tx.category_name "")) :
    ∀ p ∈ name_to_cats categories categorized, p.2 ≠ [] ∧ ∀ e ∈ p.2, P e.1 := by
  unfold name_to_cats
  have main : ∀ (l : List Transaction) (acc : List (String × List (String × String))),
      (∀ tx ∈ l, P (pyOr tx.category_name "")) →
      (∀ p ∈ acc, p.2 ≠ [] ∧ ∀ e ∈ p.2, P e.1) →
      ∀ p ∈ l.foldl (nameCatsStep categories) acc, p.2 ≠ [] ∧ ∀ e ∈ p.2, P e.1 := by
    intro l
    induction l with
    | nil => intro acc _ hacc; simpa using hacc
    | cons x xs ih =>
      intro acc hl hacc
      rw [List.foldl_cons]
      exact ih (nameCatsStep categories acc x)
        (fun t ht => hl t (List.mem_cons_of_mem x ht))
        (nameCatsStep_entries categories P acc x hacc (hl x (List.mem_cons_self x xs)))
  exact main categorized [] hcat (by simp)

theorem countStep_keys (Q : String → Prop) (counts : List (String × Nat)) (s : String)
    (hc : ∀ q ∈ counts, Q q.1) (hs : Q s) :
    ∀ q ∈ countStep counts s, Q q.1 := by
  unfold countStep
  split
  · intro q hq
    rw [List.mem_map] at hq
    obtain ⟨q0, hq0, rfl⟩ := hq
    by_cases hk : q0.1 == s
    · rw [if_pos hk]
      exact hc q0 hq0
    · rw [if_neg hk]
      exact hc q0 hq0
  · intro q hq
    rcases List.mem_append.mp hq with h | h
    · exact hc q h
    · rw [List.mem_singleton.mp h]
      exact hs

theorem countBy_keys (l : List String) : ∀ q ∈ countBy l, q.1 ∈ l := by
  unfold countBy
  have main : ∀ (t : List String) (acc : List (String × Nat)) (Q : String → Prop),
      (∀ x ∈ t, Q x) → (∀ q ∈ acc, Q q.1) → ∀ q ∈ t.foldl countStep acc, Q q.1 := by
    intro t
    induction t with
    | nil => intro acc Q _ hacc; simpa using hacc
    | cons x xs ih =>
      intro acc Q hl hacc
      rw [List.foldl_cons]
      exact ih (countStep acc x) Q (fun y hy => hl y (List.mem_cons_of_mem x hy))
        (countStep_keys Q acc x hacc (hl x (List.mem_cons_self x xs)))
  exact main l [] (fun x => x ∈ l) (fun x hx => hx) (by simp)

theorem countStep_ne_nil (counts : List (String × Nat)) (s : String) :
    countStep counts s ≠ [] := by
  unfold countStep
  split
  · rename_i hany
    rw [List.any_eq_true] at hany
    obtain ⟨q, hq, -⟩ := hany
    intro h
    rw [List.map_eq_nil_iff] at h
    rw [h] at hq
    exact absurd hq (List.not_mem_nil q)
  · simp

theorem countBy_ne_nil (l : List String) (h : l ≠ []) : countBy l ≠ [] := by
  unfold countBy
  have main : ∀ (t : List String) (acc : List (String × Nat)), acc ≠ [] →
      t.foldl countStep acc ≠ [] := by
    intro t
    induction t with
    | nil => intro acc hacc; simpa using hacc
    | cons x xs ih =>
      intro acc hacc
      rw [List.foldl_cons]
      exact ih (countStep acc x) (countStep_ne_nil acc x)
  match l, h with
  | x :: xs, _ =>
    rw [List.foldl_cons]
    exact main xs (countStep [] x) (countStep_ne_nil [] x)

theorem foldl_max_mem (rest : List (String × Nat)) :
    ∀ p, rest.foldl (fun best q => if best.2 < q.2 then q else best) p ∈ p :: rest := by
  induction rest with
  | nil => intro p; simp
  | cons q qs ih =>
    intro p
    rw [List.foldl_cons]
    have h := ih (if p.2 < q.2 then q else p)
    rcases List.mem_cons.mp h with h2 | h2
    · rw [h2]
      by_cases hc : p.2 < q.2
      · rw [if_pos hc]
        exact List.mem_cons_of_mem p (List.mem_cons_self q qs)
      · rw [if_neg hc]
        exact List.mem_cons_self p _
    · exact List.mem_cons_of_mem p (List.mem_cons_of_mem q h2)

/-- The most common value of a non-empty list is one of its members. -/
theorem mostCommonFirst_mem (l : List String) (h : l ≠ []) :
    (mostCommonFirst l).1 ∈ l := by
  unfold mostCommonFirst
  rcases hc : countBy l with _ | ⟨p, rest⟩
  · exact absurd hc (countBy_ne_nil l h)
  · have hmem := foldl_max_mem rest p
    have hsub : ∀ q ∈ p :: rest, q.1 ∈ l := by
      rw [← hc]
      exact countBy_keys l
    exact hsub _ hmem

/-- Membership in `suggest_rules` output is exactly being the suggestion of
some uncategorized merchant bucket. -/
theorem mem_suggest_rules (uncategorized categorized : List Transaction)
    (categories : List Category) (s : RuleSuggestion) :
    s ∈ suggest_rules uncategorized categorized categories ↔
    ∃ kg ∈ groupByKey (fun tx => _extract_merchant_key tx.name) uncategorized,
      suggestionFor (name_to_cats categories categorized) categories kg = s := by
  unfold suggest_rules
  dsimp only
  rw [(stableSortLe_perm _ _).mem_iff]
  exact List.mem_map

/-- C7: confidence grading of `suggest_rules` per uncategorized merchant
bucket, for categorized history whose category names are non-empty (the
caller filters on `tx.category_name`): an exact merchant-key match gives
"high" iff the most frequent category there occurs at least 3 times, else
"medium"; with no exact match, a prefix hit (≥6 shared characters compared
over at most 8) gives "medium" iff that category occurred at least twice,
else "low"; with no match at all the confidence is "low" and the suggested
category is the "(needs manual assignment)" placeholder. -/
theorem C7_suggest_rules_confidence (uncategorized categorized : List Transaction)
    (categories : List Category) (s : RuleSuggestion)
    (hcat : ∀ tx ∈ categorized, pyOr tx.category_name "" ≠ "")
    (hs : s ∈ suggest_rules uncategorized categorized categories) :
    ∃ kg ∈ groupByKey (fun tx => _extract_merchant_key tx.name) uncategorized,
      (∀ p, (name_to_cats categories categorized).find? (fun q => q.1 == kg.1) = some p →
        s.confidence =
          (if 3 ≤ (mostCommonFirst (p.2.map (fun e => e.1))).2 then "high" else "medium")) ∧
      ((name_to_cats categories categorized).find? (fun q => q.1 == kg.1) = none →
        (∀ p, (name_to_cats categories categorized).find?
            (fun q => prefixHit kg.1 q.1) = some p →
          s.confidence =
            (if 2 ≤ (mostCommonFirst (p.2.map (fun e => e.1))).2 then "medium" else "low")) ∧
        ((name_to_cats categories categorized).find? (fun q => prefixHit kg.1 q.1) = none →
          s.confidence = "low" ∧ s.suggested_category = "(needs manual assignment)")) := by
  obtain ⟨kg, hkg, hkgeq⟩ :=
    (mem_suggest_rules uncategorized categorized categories s).mp hs
  refine ⟨kg, hkg, ?_, ?_⟩
  · intro p hfind
    rw [← hkgeq]
    unfold suggestionFor
    dsimp only
    rw [hfind]
    dsimp only
    have hpmem := List.mem_of_find?_eq_some hfind
    obtain ⟨hne, hall⟩ := name_to_cats_entries categories categorized (fun n => n ≠ "")
      hcat p hpmem
    have hmapne : p.2.map (fun e => e.1) ≠ [] := by
      intro h
      rw [List.map_eq_nil_iff] at h
      exact hne h
    have hmc := mostCommonFirst_mem _ hmapne
    rw [List.mem_map] at hmc
    obtain ⟨e, he, heq⟩ := hmc
    have hmcne : (mostCommonFirst (p.2.map (fun e => e.1))).1 ≠ "" := by
      rw [← heq]
      exact hall e he
    rw [if_pos hmcne]
  · intro hnone
    constructor
    · intro p hfind
      rw [← hkgeq]
      unfold suggestionFor
      dsimp only
      rw [hnone]
      dsimp only
      rw [hfind]
      dsimp only
      have hpmem := List.mem_of_find?_eq_some hfind
      obtain ⟨hne, hall⟩ := name_to_cats_entries categories categorized (fun n => n ≠ "")
        hcat p hpmem
      have hmapne : p.2.map (fun e => e.1) ≠ [] := by
        intro h
        rw [List.map_eq_nil_iff] at h
        exact hne h
      have hmc := mostCommonFirst_mem _ hmapne
      rw [List.mem_map] at hmc
      obtain ⟨e, he, heq⟩ := hmc
      have hmcne : (mostCommonFirst (p.2.map (fun e => e.1))).1 ≠ "" := by
        rw [← heq]
        exact hall e he
      rw [if_pos hmcne]
    · intro hnone2
      rw [← hkgeq]
      unfold suggestionFor
      dsimp only
      rw [hnone]
      dsimp only
      rw [hnone2]
      dsimp only
      exact ⟨by simp, by simp⟩

/-- One uncategorized Spotify transaction for the C7 witness. -/
def uSpot : Transaction :=
  ⟨"u1", "a1", ⟨2026, 6, 1⟩, mkRat (-999) 100, "Spotify", "", none, none, ""⟩

/-- One categorized Spotify transaction for the C7 witness. -/
def cSpot (i : String) (d : Date) : Transaction :=
  ⟨i, "a1", d, mkRat (-999) 100, "Spotify", "", some "m1", some "Music", ""⟩

/-- The music category of the C7 witness. -/
def catMusic : Category :=
  ⟨"m1", "Music", CategoryType.expense, none, "", false, "", "Musik"⟩

/-- C7 witness: three categorized Spotify transactions give the exact-match
branch with count 3, so the single suggestion is graded "high". -/
theorem C7_suggest_rules_confidence_witness :
    ∃ kg ∈ groupByKey (fun tx => _extract_merchant_key tx.name) [uSpot],
      (∀ p, (name_to_cats [catMusic]
          [cSpot "c1" ⟨2026, 3, 1⟩, cSpot "c2" ⟨2026, 4, 1⟩, cSpot "c3" ⟨2026, 5, 1⟩]).find?
          (fun q => q.1 == kg.1) = some p →
        (suggestionFor (name_to_cats [catMusic]
          [cSpot "c1" ⟨2026, 3, 1⟩, cSpot "c2" ⟨2026, 4, 1⟩, cSpot "c3" ⟨2026, 5, 1⟩])
          [catMusic] ("spotify", [uSpot])).confidence =
          (if 3 ≤ (mostCommonFirst (p.2.map (fun e => e.1))).2 then "high" else "medium")) ∧
      ((name_to_cats [catMusic]
          [cSpot "c1" ⟨2026, 3, 1⟩, cSpot "c2" ⟨2026, 4, 1⟩, cSpot "c3" ⟨2026, 5, 1⟩]).find?
          (fun q => q.1 == kg.1) = none →
        (∀ p, (name_to_cats [catMusic]
            [cSpot "c1" ⟨2026, 3, 1⟩, cSpot "c2" ⟨2026, 4, 1⟩, cSpot "c3" ⟨2026, 5, 1⟩]).find?
            (fun q => prefixHit kg.1 q.1) = some p →
          (suggestionFor (name_to_cats [catMusic]
            [cSpot "c1" ⟨2026, 3, 1⟩, cSpot "c2" ⟨2026, 4, 1⟩, cSpot "c3" ⟨2026, 5, 1⟩])
            [catMusic] ("spotify", [uSpot])).confidence =
            (if 2 ≤ (mostCommonFirst (p.2.map (fun e => e.1))).2 then "medium" else "low")) ∧
        ((name_to_cats [catMusic]
            [cSpot "c1" ⟨2026, 3, 1⟩, cSpot "c2" ⟨2026, 4, 1⟩, cSpot "c3" ⟨2026, 5, 1⟩]).find?
            (fun q => prefixHit kg.1 q.1) = none →
          (suggestionFor (name_to_cats [catMusic]
            [cSpot "c1" ⟨2026, 3, 1⟩, cSpot "c2" ⟨2026, 4, 1⟩, cSpot "c3" ⟨2026, 5, 1⟩])
            [catMusic] ("spotify", [uSpot])).confidence = "low" ∧
          (suggestionFor (name_to_cats [catMusic]
            [cSpot "c1" ⟨2026, 3, 1⟩, cSpot "c2" ⟨2026, 4, 1⟩, cSpot "c3" ⟨2026, 5, 1⟩])
            [catMusic] ("spotify", [uSpot])).suggested_category =
            "(needs manual assignment)")) :=
  C7_suggest_rules_confidence [uSpot]
    [cSpot "c1" ⟨2026, 3, 1⟩, cSpot "c2" ⟨2026, 4, 1⟩, cSpot "c3" ⟨2026, 5, 1⟩]
    [catMusic]
    (suggestionFor (name_to_cats [catMusic]
      [cSpot "c1" ⟨2026, 3, 1⟩, cSpot "c2" ⟨2026, 4, 1⟩, cSpot "c3" ⟨2026, 5, 1⟩])
      [catMusic] ("spotify", [uSpot]))
    (by decide)
    (by
      rw [mem_suggest_rules]
      refine ⟨("spotify", [uSpot]), by decide, rfl⟩)

end MM
